import Mathlib

/-!
Shallow Lean embedding of the core logic of the `work-order-system-go` backend:
the work-order lifecycle (status transitions, status history, progress entries),
the audit engine's changed-field diffing, the work-order-number generator, the
reporting queries, pagination, and user registration.

Conventions of the embedding:
* Go strings stay `String`; Go `int`/`int64` become `Int` (no arithmetic here
  comes close to overflow); `time.Time` values become `Int` instants (seconds),
  with the zone offset carried separately where the audit normalization needs it.
* The database is a record of lists; a GORM `First(&x, id)` is a `find?` that
  skips soft-deleted rows, `Create` appends, `Save` replaces by primary key.
* A handler returns `Except ApiErr ...`; the constructors of `ApiErr` name the
  error responses the controllers produce.
-/

namespace WorkOrderSys

/-- `models.WorkOrderStatus` is a plain string; `models.StatusPending`. -/
def statusPending : String := "pending"

/-- `models.StatusInProgress`. -/
def statusInProgress : String := "in_progress"

/-- `models.StatusCompleted`. -/
def statusCompleted : String := "completed"

/-- `models.RoleProductionManager`. -/
def roleProductionManager : String := "production_manager"

/-- `models.RoleOperator`. -/
def roleOperator : String := "operator"

/-- `isValidStatusTransition` (controllers/work_order_controller.go): a `switch`
on the current status; `pending` may go to `in_progress`, `in_progress` to
`completed`, anything else (including `completed`) to nothing. -/
def isValidStatusTransition (fromS toS : String) : Bool :=
  if fromS = statusPending then toS = statusInProgress
  else if fromS = statusInProgress then toS = statusCompleted
  else false

/-- `models.User`: id, unique username, hashed password, role string. -/
structure User where
  id : Nat
  username : String
  password : String
  role : String
deriving DecidableEq, Repr

/-- `models.WorkOrder`. `productionDeadline` and `createdAt` are instants;
`deletedAt = none` means the row is not soft-deleted. `targetQuantity` is the
`target_quantity` column used by the summary report (present on the current
model, as the seeder's `models.WorkOrder{TargetQuantity: ...}` shows). -/
structure WorkOrder where
  id : Nat
  workOrderNumber : String
  productName : String
  quantity : Int
  targetQuantity : Int
  productionDeadline : Int
  status : String
  operatorId : Nat
  createdAt : Int
  deletedAt : Option Int
deriving DecidableEq, Repr

/-- `models.WorkOrderStatusHistory` (the fields the logic writes). -/
structure WorkOrderStatusHistory where
  workOrderId : Nat
  status : String
  quantity : Int
deriving DecidableEq, Repr

/-- `models.WorkOrderProgress` (the fields the logic writes). -/
structure WorkOrderProgress where
  workOrderId : Nat
  progressDesc : String
  progressQuantity : Int
deriving DecidableEq, Repr

/-- The error responses the embedded handlers produce.  `notFound` is the 404
"... not found" body, `forbidden` the 403 bodies, `invalidTransition` the 400
"Invalid status transition", `invalidState` the 400 "Work order must be in
progress to add progress updates", `operatorNotFound` the 400 "Operator not
found", `duplicateUsername` the 400 "Username already exists". -/
inductive ApiErr where
  | notFound
  | forbidden
  | invalidTransition
  | invalidState
  | operatorNotFound
  | duplicateUsername
deriving DecidableEq, Repr

/-- The audit engine's value universe: the runtime values the reflection-based
diff can meet on the models it is called with.  `vTime instant offset` is a
`time.Time` (an instant plus the zone it is rendered in); `vDeleted` is a
`gorm.DeletedAt`; `vUser` is an embedded `models.User` association value
(update handlers load work orders without `Preload`, so it is the zero `User`
on both snapshots); `vNil` is the untyped `nil` interface value that
`normalizeValue` returns for an invalid `DeletedAt`. -/
inductive GoValue where
  | vNil
  | vStr : String → GoValue
  | vInt : Int → GoValue
  | vTime : Int → Int → GoValue
  | vDeleted : Option Int → GoValue
  | vUser : Nat → String → String → GoValue
deriving DecidableEq, Repr

/-- One struct field as the reflection loop of `GetChangedFields` sees it:
its Go name, its `json` tag, its `audit` tag, whether it is exported, and its
runtime value. -/
structure GoField where
  goName : String
  jsonTag : String
  auditTag : String
  exported : Bool
  value : GoValue
deriving DecidableEq, Repr

/-- RFC3339 rendering of an instant in a zone, as an injective encoding: two
renderings are equal exactly when instant and offset both agree, which is all
the diffing logic observes about the string. -/
def rfc3339 (instant offset : Int) : String :=
  toString instant ++ "@" ++ toString offset

/-- `normalizeValue` (services/audit_service.go): `time.Time` is rendered with
`Format(time.RFC3339)`; a valid `gorm.DeletedAt` renders its time, an invalid
one becomes `nil`; everything else passes through. -/
def normalizeValue : GoValue → GoValue
  | .vTime i off => .vStr (rfc3339 i off)
  | .vDeleted (some t) => .vStr (rfc3339 t 0)
  | .vDeleted none => .vNil
  | v => v

/-- The `ignoredFields` set of `GetChangedFields`. -/
def ignoredFields : List String := ["updated_at", "created_at", "deleted_at"]

/-- The part of a `json` tag before the first comma (`strings.Split(tag, ",")[0]`). -/
def jsonBaseTag (tag : String) : String := String.mk (tag.data.takeWhile (fun c => c ≠ ','))

/-- The `time.Time` re-check of `GetChangedFields`: when both runtime values
are `time.Time`, parse the two renderings back and compare the instants in
UTC (`oldTime.UTC().Equal(newTime.UTC())`). -/
def sameTimeInstant : GoValue → GoValue → Bool
  | .vTime i _, .vTime j _ => i = j
  | _, _ => false

/-- Whether the field pair `(fo, fn)` produces a diff entry in
`GetChangedFields`: skipped when unexported, when `audit:"-"`, when the json
tag is empty or `"-"`, when the base tag is in `ignoredFields`, when the
normalized values are `DeepEqual`, and — for `time.Time` fields whose
renderings differ — when the parsed instants agree in UTC. -/
def fieldDiff (fo fn : GoField) : Option (String × GoValue × GoValue) :=
  if !fo.exported then none
  else if fo.auditTag = "-" then none
  else if fo.jsonTag = "" ∨ fo.jsonTag = "-" then none
  else
    let base := jsonBaseTag fo.jsonTag
    if base ∈ ignoredFields then none
    else
      let no := normalizeValue fo.value
      let nn := normalizeValue fn.value
      if no = nn then none
      else if sameTimeInstant fo.value fn.value then none
      else some (base, no, nn)

/-- `GetChangedFields` (services/audit_service.go): walk the fields of the old
snapshot together with the same-typed new snapshot and collect the changed
ones.  (The Go code builds a map; the embedding keeps the entries in field
order, which is the same set.) -/
def getChangedFields : List GoField → List GoField → List (String × GoValue × GoValue)
  | fo :: os, fn :: ns =>
      match fieldDiff fo fn with
      | some e => e :: getChangedFields os ns
      | none => getChangedFields os ns
  | _, _ => []

/-- `models.AuditLog` (the fields `CreateLog` fills; `oldValues`/`newValues`
are the changed-field projections that get marshalled into the jsonb columns). -/
structure AuditLog where
  userId : Nat
  action : String
  entityType : String
  entityId : Nat
  oldValues : List (String × GoValue)
  newValues : List (String × GoValue)
  note : String
deriving DecidableEq, Repr

/-- The application database: one list per table. -/
structure DBState where
  users : List User
  workOrders : List WorkOrder
  histories : List WorkOrderStatusHistory
  progresses : List WorkOrderProgress
  auditLogs : List AuditLog
deriving DecidableEq, Repr

/-- `database.DB.First(&workOrder, id)`: GORM's default scope skips
soft-deleted rows. -/
def findWorkOrder (db : DBState) (woId : Nat) : Option WorkOrder :=
  db.workOrders.find? (fun wo => wo.id = woId && wo.deletedAt = none)

/-- `database.DB.Save(&workOrder)`: replace the row with the same primary key. -/
def saveWorkOrder (db : DBState) (wo : WorkOrder) : DBState :=
  { db with workOrders := db.workOrders.map (fun w => if w.id = wo.id then wo else w) }

/-- The status values of a work order's history rows, in insertion order
(`GetWorkOrderStatusHistory` reads them back ordered by creation time). -/
def historyStatuses (db : DBState) (woId : Nat) : List String :=
  (db.histories.filter (fun h => h.workOrderId = woId)).map (fun h => h.status)

/-- The reflection view of a `WorkOrder` that `CreateLog` receives: the struct
fields in declaration order with their tags.  `Operator` is the zero `User`
(update handlers fetch without `Preload`) and `DeletedAt` carries json tag
`"-"`. -/
def woFields (wo : WorkOrder) : List GoField :=
  [ ⟨"ID", "id", "", true, .vInt wo.id⟩,
    ⟨"WorkOrderNumber", "work_order_number", "", true, .vStr wo.workOrderNumber⟩,
    ⟨"ProductName", "product_name", "", true, .vStr wo.productName⟩,
    ⟨"Quantity", "quantity", "", true, .vInt wo.quantity⟩,
    ⟨"TargetQuantity", "target_quantity", "", true, .vInt wo.targetQuantity⟩,
    ⟨"ProductionDeadline", "production_deadline", "", true, .vTime wo.productionDeadline 0⟩,
    ⟨"Status", "status", "", true, .vStr wo.status⟩,
    ⟨"OperatorID", "operator_id", "", true, .vInt wo.operatorId⟩,
    ⟨"Operator", "operator", "", true, .vUser 0 "" ""⟩,
    ⟨"CreatedAt", "created_at", "", true, .vTime wo.createdAt 0⟩,
    ⟨"UpdatedAt", "updated_at", "", true, .vTime wo.createdAt 0⟩,
    ⟨"DeletedAt", "-", "", true, .vDeleted wo.deletedAt⟩ ]

/-- `AuditLogService.CreateLog`: look the actor up (an error aborts the write),
compute the changed-field set, and build the log row whose `OldValues` /
`NewValues` keep only the changed fields' old respectively new values.  A `nil`
snapshot contributes no values (`GetChangedFields` returns empty on `nil`). -/
def createLog (db : DBState) (userId : Nat) (action : String) (entityType : String)
    (entityId : Nat) (oldV newV : Option (List GoField)) (note : String) :
    Option AuditLog :=
  match db.users.find? (fun u => u.id = userId) with
  | none => none
  | some _ =>
      let changes :=
        match oldV, newV with
        | some o, some n => getChangedFields o n
        | _, _ => []
      some { userId := userId, action := action, entityType := entityType,
             entityId := entityId,
             oldValues := changes.map (fun e => (e.1, e.2.1)),
             newValues := changes.map (fun e => (e.1, e.2.2)),
             note := note }

/-- Append an audit log if `CreateLog` succeeded; its failure is non-fatal for
the caller (only logged), so the rest of the state is unchanged either way. -/
def recordAudit (db : DBState) (log? : Option AuditLog) : DBState :=
  match log? with
  | some l => { db with auditLogs := db.auditLogs ++ [l] }
  | none => db

/-! ### Work-order-number generation (`GenerateWorkOrderNumber`) -/

/-- Byte-lexicographic strict order on character lists, the collation `ORDER BY
work_order_number DESC` sorts by. -/
def lexLt : List Char → List Char → Bool
  | [], [] => false
  | [], _ :: _ => true
  | _ :: _, [] => false
  | a :: as, b :: bs =>
      if a.toNat < b.toNat then true
      else if b.toNat < a.toNat then false
      else lexLt as bs

/-- `p` is a leading segment of `s`: the `LIKE 'WO-<date>-%'` filter, and the
literal-matching part of `Sscanf`. -/
def isLeadingSeg : List Char → List Char → Bool
  | [], _ => true
  | _ :: _, [] => false
  | p :: ps, c :: cs => if p = c then isLeadingSeg ps cs else false

/-- `ORDER BY work_order_number DESC ... First`: a byte-lexicographic maximum
of the matching rows (`none` when there are none, which is the
`result.Error != nil` branch). -/
def latestNumber : List String → Option String
  | [] => none
  | n :: ns =>
      match latestNumber ns with
      | none => some n
      | some m => some (if lexLt m.data n.data then n else m)

/-- The `%03d` verb of `Sscanf` reads at most three leading decimal digits (a
missing match leaves the scanned variable at zero, and the Go code increments
it without checking the scan error). -/
def scan3 (cs : List Char) : Nat :=
  ((cs.takeWhile Char.isDigit).take 3).foldl (fun n c => n * 10 + (c.toNat - 48)) 0

/-- `fmt.Sprintf("%03d", n)`: the decimal rendering left-padded with zeros to
width three (wider numbers render unpadded). -/
def pad3 (n : Nat) : String :=
  if n < 10 then "00" ++ toString n
  else if n < 100 then "0" ++ toString n
  else toString n

/-- The three digit characters of `pad3 n` for `n ≤ 999`. -/
def pad3Digits (n : Nat) : List Char :=
  [Nat.digitChar (n / 100), Nat.digitChar (n / 10 % 10), Nat.digitChar (n % 10)]

/-- `GenerateWorkOrderNumber` (controllers/work_order_controller.go): today's
prefix is `WO-<YYYYMMDD>-`; take the lexicographically greatest number with
that prefix (`LIKE` filter plus `ORDER BY ... DESC` + `First`), `Sscanf` its
sequence with `%03d` (the literal prefix matches, then at most three digits
are read), add one (or start at 1 when the day has none), and format with
`%03d`. -/
def generateWorkOrderNumber (today : String) (numbers : List String) : String :=
  match latestNumber (numbers.filter
      (fun n => isLeadingSeg ("WO-" ++ today ++ "-").data n.data)) with
  | none => ("WO-" ++ today ++ "-") ++ pad3 1
  | some latest =>
      ("WO-" ++ today ++ "-") ++
        pad3 (scan3 (latest.data.drop ("WO-" ++ today ++ "-").data.length) + 1)

/-- The number with day prefix `today` and sequence `j` as the generator
formats it. -/
def woNum (today : String) (j : Nat) : String :=
  ("WO-" ++ today ++ "-") ++ pad3 j

/-- The table of numbers after `n` sequential (non-concurrent) creations on
one calendar day, starting from an empty table: each step stores the number
`GenerateWorkOrderNumber` produced against the table so far. -/
def createdNumbers (today : String) : Nat → List String
  | 0 => []
  | n + 1 =>
      let prev := createdNumbers today n
      prev ++ [generateWorkOrderNumber today prev]

/-- The work-order-number shape the specification asserts, read off its words:
`WO-` then an 8-digit date, `-`, and a 3-digit sequence (15 characters). -/
def claimNumberFormat (s : String) : Bool :=
  (s.data.take 3 = ['W', 'O', '-']) && s.data.length = 15 &&
    ((s.data.drop 3).take 8).all Char.isDigit && s.data[11]? = some '-' &&
    (s.data.drop 12).all Char.isDigit

/-! ### Lifecycle operations

`work_order_controller.go` contains two revisions of the work-order handlers,
concatenated: an earlier one (`V1`, file lines 1–571) that validates status
transitions and writes status-history rows, and the audit-logging revision
(`V2`, file lines 572–1355) that the current routes' `GetWorkOrderLogs` /
`CreateWorkOrderLog` handlers belong to.  Both are embedded. -/

/-- The request body of `PUT /work-orders/:id/status`. -/
structure UpdateStatusReq where
  status : String
  quantity : Int
deriving DecidableEq, Repr

/-- The request body of `PUT /work-orders/:id` (partial update; `none` models
the zero value that leaves a field untouched). -/
structure UpdateWorkOrderReq where
  productName : String
  quantity : Int
  productionDeadline : Option Int
  status : String
  operatorId : Nat
deriving DecidableEq, Repr

/-- The request body of `POST /work-orders`. -/
structure CreateWorkOrderReq where
  productName : String
  quantity : Int
  productionDeadline : Int
  operatorId : Nat
deriving DecidableEq, Repr

/-- `CreateWorkOrder`: manager-only; the operator must exist with the operator
role; the number comes from `GenerateWorkOrderNumber`; the order starts
`pending` and one `pending` history row with quantity 0 is written.
`today` is `time.Now().Format("20060102")`, `now` the creation instant, and
`newId` the primary key the insert assigns. -/
def createWorkOrder (db : DBState) (role : String) (req : CreateWorkOrderReq)
    (today : String) (now : Int) (newId : Nat) :
    Except ApiErr (DBState × WorkOrder) :=
  if role ≠ roleProductionManager then .error .forbidden
  else
    match db.users.find? (fun u => u.id = req.operatorId && u.role = roleOperator) with
    | none => .error .operatorNotFound
    | some _ =>
        let number := generateWorkOrderNumber today
          ((db.workOrders.filter (fun w => w.deletedAt = none)).map (fun w => w.workOrderNumber))
        let wo : WorkOrder :=
          { id := newId, workOrderNumber := number, productName := req.productName,
            quantity := req.quantity, targetQuantity := 0,
            productionDeadline := req.productionDeadline,
            status := statusPending, operatorId := req.operatorId,
            createdAt := now, deletedAt := none }
        let db1 := { db with workOrders := db.workOrders ++ [wo] }
        let db2 := { db1 with histories :=
          db1.histories ++ [⟨newId, statusPending, 0⟩] }
        .ok (db2, wo)

/-- `UpdateWorkOrderStatus`, first revision (file lines 475–559): fetch; an
operator must be the assignee; the transition is checked with
`isValidStatusTransition` and an illegal one is rejected before any write; on
success the status is set, the quantity only if positive, the row saved and a
history row `(new status, quantity)` created. -/
def updateWorkOrderStatusV1 (db : DBState) (userId : Nat) (role : String)
    (woId : Nat) (req : UpdateStatusReq) : Except ApiErr (DBState × WorkOrder) :=
  match findWorkOrder db woId with
  | none => .error .notFound
  | some wo =>
      if role = roleOperator ∧ wo.operatorId ≠ userId then .error .forbidden
      else if ¬ isValidStatusTransition wo.status req.status then .error .invalidTransition
      else
        let wo1 := { wo with status := req.status }
        let wo2 := if req.quantity > 0 then { wo1 with quantity := req.quantity } else wo1
        let db1 := saveWorkOrder db wo2
        let db2 := { db1 with histories := db1.histories ++ [⟨wo2.id, req.status, wo2.quantity⟩] }
        .ok (db2, wo2)

/-- `UpdateWorkOrderStatus`, audit-logging revision (file lines 1053–1148): an
operator must be the assignee, any other role must be production manager;
the order is fetched and copied, the requested status is assigned with **no**
`isValidStatusTransition` check, the quantity only if positive; the row is
saved, an audit log comparing the before/after snapshots is written
(non-fatally), and **no** status-history row is created. -/
def updateWorkOrderStatusV2 (db : DBState) (userId : Nat) (role : String)
    (woId : Nat) (req : UpdateStatusReq) : Except ApiErr (DBState × WorkOrder) :=
  let roleCheck : Except ApiErr Unit :=
    if role = roleOperator then
      match findWorkOrder db woId with
      | none => .error .notFound
      | some wo => if wo.operatorId ≠ userId then .error .forbidden else .ok ()
    else if role ≠ roleProductionManager then .error .forbidden
    else .ok ()
  match roleCheck with
  | .error e => .error e
  | .ok () =>
      match findWorkOrder db woId with
      | none => .error .notFound
      | some oldWo =>
          let wo1 := { oldWo with status := req.status }
          let wo2 := if req.quantity > 0 then { wo1 with quantity := req.quantity } else wo1
          let db1 := saveWorkOrder db wo2
          let log? := createLog db1 userId "update" "WorkOrder" wo2.id
            (some (woFields oldWo)) (some (woFields wo2))
            ("Work order " ++ wo2.workOrderNumber ++ " status updated")
          .ok (recordAudit db1 log?, wo2)

/-- `UpdateWorkOrder`, first revision (file lines 364–459): manager-only
partial update; a supplied operator must exist with the operator role; a
non-empty `status` is assigned with **no** transition check, and when it
differs from the old one a history row `(new status, patched quantity)` is
created; then the row is saved.  No audit log in this revision. -/
def updateWorkOrderV1 (db : DBState) (role : String) (woId : Nat)
    (req : UpdateWorkOrderReq) : Except ApiErr (DBState × WorkOrder) :=
  if role ≠ roleProductionManager then .error .forbidden
  else
    match findWorkOrder db woId with
    | none => .error .notFound
    | some wo0 =>
        match
          (if req.operatorId ≠ 0 then
            match db.users.find? (fun u => u.id = req.operatorId && u.role = roleOperator) with
            | none => .error .operatorNotFound
            | some _ => .ok { wo0 with operatorId := req.operatorId }
          else .ok wo0 : Except ApiErr WorkOrder) with
        | .error e => .error e
        | .ok woA =>
            let woB := if req.productName ≠ "" then { woA with productName := req.productName } else woA
            let woC := if req.quantity > 0 then { woB with quantity := req.quantity } else woB
            let woD := match req.productionDeadline with
              | some d => { woC with productionDeadline := d }
              | none => woC
            let woE := if req.status ≠ "" then { woD with status := req.status } else woD
            let db1 :=
              if req.status ≠ "" ∧ woD.status ≠ req.status then
                { db with histories := db.histories ++ [⟨woE.id, req.status, woE.quantity⟩] }
              else db
            .ok (saveWorkOrder db1 woE, woE)

/-- `UpdateWorkOrder`, audit-logging revision (file lines 952–1037):
manager-only partial update on a copy of the fetched row; every supplied field
is assigned — the status again with **no** transition check, and the operator
id with no existence check in this revision; the row is saved and an audit log
comparing the before/after snapshots is written (non-fatally).  No history row
is created in this revision. -/
def updateWorkOrderV2 (db : DBState) (userId : Nat) (role : String) (woId : Nat)
    (req : UpdateWorkOrderReq) : Except ApiErr (DBState × WorkOrder) :=
  if role ≠ roleProductionManager then .error .forbidden
  else
    match findWorkOrder db woId with
    | none => .error .notFound
    | some oldWo =>
        let woA := if req.productName ≠ "" then { oldWo with productName := req.productName } else oldWo
        let woB := if req.quantity > 0 then { woA with quantity := req.quantity } else woA
        let woC := match req.productionDeadline with
          | some d => { woB with productionDeadline := d }
          | none => woB
        let woD := if req.status ≠ "" then { woC with status := req.status } else woC
        let woE := if req.operatorId ≠ 0 then { woD with operatorId := req.operatorId } else woD
        let db1 := saveWorkOrder db woE
        let log? := createLog db1 userId "update" "WorkOrder" woE.id
          (some (woFields oldWo)) (some (woFields woE))
          ("Work order " ++ woE.workOrderNumber ++ " updated")
        .ok (recordAudit db1 log?, woE)

/-- The request body of `POST /work-orders/:id/progress`. -/
structure CreateProgressReq where
  progressDesc : String
  progressQuantity : Int
deriving DecidableEq, Repr

/-- `CreateWorkOrderProgress` (work_order_progress_controller.go): fetch; an
operator must be the assignee; the order must currently be `in_progress`
(otherwise the 400 `InvalidState` response), and on success exactly one
progress row with the given description and quantity is created. -/
def createWorkOrderProgress (db : DBState) (userId : Nat) (role : String)
    (woId : Nat) (req : CreateProgressReq) :
    Except ApiErr (DBState × WorkOrderProgress) :=
  match findWorkOrder db woId with
  | none => .error .notFound
  | some wo =>
      if role = roleOperator ∧ wo.operatorId ≠ userId then .error .forbidden
      else if wo.status ≠ statusInProgress then .error .invalidState
      else
        let p : WorkOrderProgress := ⟨wo.id, req.progressDesc, req.progressQuantity⟩
        .ok ({ db with progresses := db.progresses ++ [p] }, p)

/-- Every consecutive step from `prev` through the list is a legal edge. -/
def validChainFrom : String → List String → Bool
  | _, [] => true
  | prev, s :: rest => isValidStatusTransition prev s && validChainFrom s rest

/-- `pending` history first and every consecutive pair a legal edge: the path
property the specification asserts of a work order's status-history column. -/
def validStatusPath : List String → Bool
  | [] => false
  | s :: rest => s = statusPending && validChainFrom s rest

/-- One call of the validated `UpdateWorkOrderStatus` revision against the
store; an error response writes nothing, so it leaves the state unchanged. -/
def stepStatusV1 (userId : Nat) (role : String) (woId : Nat) (db : DBState)
    (r : UpdateStatusReq) : DBState :=
  match updateWorkOrderStatusV1 db userId role woId r with
  | .ok (d, _) => d
  | .error _ => db

/-- A sequence of `UpdateStatus` calls (validated revision) against the store. -/
def applyStatusOpsV1 (userId : Nat) (role : String) (woId : Nat) (db : DBState)
    (ops : List UpdateStatusReq) : DBState :=
  ops.foldl (stepStatusV1 userId role woId) db

/-! ### Reporting (`part_006`: dashboard, per-product summary) -/

/-- `time.Hour * 24` in seconds: a report's parsed `end_date` is midnight of
that day, and the code adds one day to make the bound exclusive of the day
after the end date. -/
def oneDay : Int := 86400

/-- An optional `[start_date, end_date]` report window, already parsed to the
midnight instants (`none` models an absent or unparsable parameter, which adds
no bound). -/
structure DateWindow where
  startT : Option Int
  endT : Option Int
deriving DecidableEq, Repr

/-- The window predicate the report queries build: `field >= start` and
`field < end + 24h`, each conjunct only when its parameter was given. -/
def inWindow (w : DateWindow) (t : Int) : Bool :=
  (match w.startT with | none => true | some s => decide (s ≤ t)) &&
  (match w.endT with | none => true | some e => decide (t < e + oneDay))

/-- `GetWorkOrderDashboard` (part_006 lines 135–185): the window is applied to
**`created_at`**; a non-manager caller is scoped to their own assignments.
The four counts (pending, in progress, completed, total) are returned. -/
structure DashboardCounts where
  pending : Nat
  inProgress : Nat
  completed : Nat
  total : Nat
deriving DecidableEq, Repr

/-- The dashboard's base row set and counts. -/
def getWorkOrderDashboard (wos : List WorkOrder) (role : String) (userId : Nat)
    (w : DateWindow) : DashboardCounts :=
  let base := wos.filter (fun wo =>
    wo.deletedAt = none && inWindow w wo.createdAt &&
      (role = roleProductionManager || wo.operatorId = userId))
  { pending := (base.filter (fun wo => wo.status = statusPending)).length
    inProgress := (base.filter (fun wo => wo.status = statusInProgress)).length
    completed := (base.filter (fun wo => wo.status = statusCompleted)).length
    total := base.length }

/-- What the specification says the dashboard does, written from its words for
comparison: the same counts with the window applied to the production
deadline instead. -/
def specDashboardOnDeadline (wos : List WorkOrder) (role : String) (userId : Nat)
    (w : DateWindow) : DashboardCounts :=
  let base := wos.filter (fun wo =>
    wo.deletedAt = none && inWindow w wo.productionDeadline &&
      (role = roleProductionManager || wo.operatorId = userId))
  { pending := (base.filter (fun wo => wo.status = statusPending)).length
    inProgress := (base.filter (fun wo => wo.status = statusInProgress)).length
    completed := (base.filter (fun wo => wo.status = statusCompleted)).length
    total := base.length }

/-- One row of the per-product summary report. -/
structure SummaryRow where
  workOrderNumber : String
  productName : String
  totalWO : Int
  percentage : Int
  targetQty : Int
  achievedQty : Int
  achievement : Int
  pendingC : Int
  inProgressC : Int
  completedC : Int
  cancelledC : Int
deriving DecidableEq, Repr

/-- `GetWorkOrderSummary`'s effective deadline window (part_006 lines
316–334): a given bound is the parsed date (end exclusive of the following
day); an absent one falls back to the current year's Jan 1 / Dec 31 bounds
(`yearStart`/`yearEnd`, the latter used without the one-day shift). -/
def inSummaryWindow (w : DateWindow) (yearStart yearEnd : Int) (t : Int) : Bool :=
  (match w.startT with | none => decide (yearStart ≤ t) | some s => decide (s ≤ t)) &&
  (match w.endT with | none => decide (t < yearEnd) | some e => decide (t < e + oneDay))

/-- Integer value of `int64(float64(a)/float64(b)*100)` for the report's
counts and quantities: the truncated percentage.  (The source computes it in
`float64`; on the magnitudes involved the truncated rational value below is
what that computation denotes.) -/
def pct (a b : Int) : Int := (a * 100).tdiv b

/-- The per-product row of `GetWorkOrderSummary` (part_006 lines 355–421) over
the deadline-filtered base set. -/
def summaryRowFor (base : List WorkOrder) (totalWorkOrders : Int) (p : String) :
    SummaryRow :=
  let mine := base.filter (fun wo => wo.productName = p)
  let totalWO : Int := mine.length
  let targetQty : Int := (mine.map (fun wo => wo.targetQuantity)).sum
  let achievedQty : Int :=
    ((mine.filter (fun wo => wo.status = statusCompleted)).map (fun wo => wo.quantity)).sum
  { workOrderNumber := String.intercalate ", " ((mine.map (fun wo => wo.workOrderNumber)).dedup)
    productName := p
    totalWO := totalWO
    percentage := if totalWorkOrders > 0 then pct totalWO totalWorkOrders else 0
    targetQty := targetQty
    achievedQty := achievedQty
    achievement := if targetQty > 0 then pct achievedQty targetQty else 0
    pendingC := (mine.filter (fun wo => wo.status = statusPending)).length
    inProgressC := (mine.filter (fun wo => wo.status = statusInProgress)).length
    completedC := (mine.filter (fun wo => wo.status = statusCompleted)).length
    cancelledC := (mine.filter (fun wo => wo.deletedAt ≠ none)).length }

/-- The synthetic "Total" row (part_006 lines 424–447): product name `Total`,
the grand total with percentage literally 100, and the other columns summed
over the product rows. -/
def summaryTotalRow (rows : List SummaryRow) (totalWorkOrders : Int) : SummaryRow :=
  let targetQty := (rows.map (fun r => r.targetQty)).sum
  let achievedQty := (rows.map (fun r => r.achievedQty)).sum
  { workOrderNumber := ""
    productName := "Total"
    totalWO := totalWorkOrders
    percentage := 100
    targetQty := targetQty
    achievedQty := achievedQty
    achievement := if targetQty > 0 then pct achievedQty targetQty else 0
    pendingC := (rows.map (fun r => r.pendingC)).sum
    inProgressC := (rows.map (fun r => r.inProgressC)).sum
    completedC := (rows.map (fun r => r.completedC)).sum
    cancelledC := (rows.map (fun r => r.cancelledC)).sum }

/-- The deadline-filtered base set of `GetWorkOrderSummary` (GORM's default
scope also excludes soft-deleted rows). -/
def summaryBase (wos : List WorkOrder) (w : DateWindow) (yearStart yearEnd : Int) :
    List WorkOrder :=
  wos.filter (fun wo =>
    wo.deletedAt = none && inSummaryWindow w yearStart yearEnd wo.productionDeadline)

/-- `GetWorkOrderSummary` (part_006 lines 300–453): the window is applied to
**`production_deadline`**; one row per distinct product name in the window,
and when any product row exists a "Total" row is appended. -/
def getWorkOrderSummary (wos : List WorkOrder) (w : DateWindow)
    (yearStart yearEnd : Int) : List SummaryRow :=
  let base := summaryBase wos w yearStart yearEnd
  let productNames := (base.map (fun wo => wo.productName)).dedup
  let totalWorkOrders : Int := base.length
  let rows := productNames.map (summaryRowFor base totalWorkOrders)
  if rows.isEmpty then rows else rows ++ [summaryTotalRow rows totalWorkOrders]

/-- The base row set of `GetWorkOrderSummaryByOperator` (part_006 lines
468–503): scoped to one operator, with the window (and the same year-bound
defaults) applied to **`created_at`**. -/
def summaryByOperatorBase (wos : List WorkOrder) (operatorId : Nat) (w : DateWindow)
    (yearStart yearEnd : Int) : List WorkOrder :=
  wos.filter (fun wo =>
    wo.deletedAt = none && wo.operatorId = operatorId &&
      inSummaryWindow w yearStart yearEnd wo.createdAt)

/-! ### Pagination (`GetWorkOrders`, `GetAssignedWorkOrders`, `GetAuditLogs`) -/

/-- Go's `/` on integers, totalized with `none` for the division-by-zero
runtime panic (Go truncates toward zero; `Int.tdiv` is that rounding). -/
def goDiv (a b : Int) : Option Int := if b = 0 then none else some (a.tdiv b)

/-- The page-count expression every list endpoint builds:
`(count + int64(limit) - 1) / int64(limit)`, with no guard on `limit`. -/
def pagesOf (count limit : Int) : Option Int := goDiv (count + limit - 1) limit

/-- The pagination block of a list response. -/
structure Pagination where
  total : Int
  page : Int
  limit : Int
  pages : Int
deriving DecidableEq, Repr

/-- `c.QueryInt(name, default)`: the supplied value, or the default. -/
def queryIntD (q : Option Int) (d : Int) : Int := q.getD d

/-- The pagination part of `GetWorkOrders` (work_order_controller.go lines
770–837): page and limit from the query with defaults 1 and 10, the count of
the (here unfiltered) scope, and `Pages = (count+limit-1)/limit` — `none` is
the division-by-zero panic when `limit = 0` was supplied. -/
def getWorkOrdersPagination (wos : List WorkOrder) (pageQ limitQ : Option Int) :
    Option Pagination :=
  let page := queryIntD pageQ 1
  let limit := queryIntD limitQ 10
  let count : Int := (wos.filter (fun wo => wo.deletedAt = none)).length
  match pagesOf count limit with
  | none => none
  | some pages => some ⟨count, page, limit, pages⟩

/-- The pagination part of `GetAssignedWorkOrders` (lines 852–897): the scope
is the caller's assignments. -/
def getAssignedWorkOrdersPagination (wos : List WorkOrder) (userId : Nat)
    (pageQ limitQ : Option Int) : Option Pagination :=
  let page := queryIntD pageQ 1
  let limit := queryIntD limitQ 10
  let count : Int :=
    (wos.filter (fun wo => wo.deletedAt = none && wo.operatorId = userId)).length
  match pagesOf count limit with
  | none => none
  | some pages => some ⟨count, page, limit, pages⟩

/-- The pagination part of `GetAuditLogs` (part_006 lines 16–61): the scope is
the audit-log table. -/
def getAuditLogsPagination (logs : List AuditLog) (pageQ limitQ : Option Int) :
    Option Pagination :=
  let page := queryIntD pageQ 1
  let limit := queryIntD limitQ 10
  let count : Int := logs.length
  match pagesOf count limit with
  | none => none
  | some pages => some ⟨count, page, limit, pages⟩

/-! ### Registration and routes -/

/-- The request body of `POST /api/auth/register`. -/
structure RegisterReq where
  username : String
  password : String
  role : String
deriving DecidableEq, Repr

/-- The `BeforeSave` hook replaces the password with its bcrypt hash; the hash
is opaque to every claim, so it is embedded as an injective tagging. -/
def bcryptHash (s : String) : String := "bcrypt$" ++ s

/-- `Register` (part_007 lines 130–188): the only rejection is an existing row
with the same username; otherwise a user is created carrying exactly the
requested role — no authorization check is applied to it. -/
def register (db : DBState) (req : RegisterReq) (newId : Nat) :
    Except ApiErr (DBState × User) :=
  match db.users.find? (fun u => u.username = req.username) with
  | some _ => .error .duplicateUsername
  | none =>
      let u : User := ⟨newId, req.username, bcryptHash req.password, req.role⟩
      .ok ({ db with users := db.users ++ [u] }, u)

/-- One route registration of `SetupRoutes`: HTTP method, path, whether the
`Protected()` JWT middleware guards it, and the roles a `RoleAuthorization`
middleware allows (empty when none is installed). -/
structure RouteEntry where
  method : String
  path : String
  requiresAuth : Bool
  allowedRoles : List String
  handler : String
deriving DecidableEq, Repr

/-- `SetupRoutes` (routes/routes.go, current revision): the two `/api/auth`
routes are registered before the `Protected()` group; everything else lives
under it, with `RoleAuthorization` where noted. -/
def setupRoutes : List RouteEntry :=
  [ ⟨"POST", "/api/auth/login", false, [], "Login"⟩,
    ⟨"POST", "/api/auth/register", false, [], "Register"⟩,
    ⟨"GET", "/api/operators", true, [], "GetOperators"⟩,
    ⟨"GET", "/api/work-orders/:id", true, [], "GetWorkOrderByID"⟩,
    ⟨"GET", "/api/work-orders/:id/progress", true, [], "GetWorkOrderProgress"⟩,
    ⟨"GET", "/api/work-orders/:id/history", true, [], "GetWorkOrderStatusHistory"⟩,
    ⟨"POST", "/api/work-orders", true, [roleProductionManager], "CreateWorkOrder"⟩,
    ⟨"GET", "/api/work-orders", true, [roleProductionManager], "GetWorkOrders"⟩,
    ⟨"PUT", "/api/work-orders/:id", true, [roleProductionManager], "UpdateWorkOrder"⟩,
    ⟨"GET", "/api/work-orders/:id", true, [roleProductionManager], "GetWorkOrderByID"⟩,
    ⟨"DELETE", "/api/work-orders/:id", true, [roleProductionManager], "DeleteWorkOrder"⟩,
    ⟨"GET", "/api/work-orders/:id/logs", true, [roleProductionManager], "GetWorkOrderLogs"⟩,
    ⟨"POST", "/api/work-orders/:id/logs", true, [roleProductionManager], "CreateWorkOrderLog"⟩,
    ⟨"GET", "/api/work-orders/assigned", true, [roleOperator], "GetAssignedWorkOrders"⟩,
    ⟨"PUT", "/api/work-orders/:id/status", true, [], "UpdateWorkOrderStatus"⟩,
    ⟨"POST", "/api/work-orders/:id/progress", true, [], "CreateWorkOrderProgress"⟩,
    ⟨"GET", "/api/audit-logs", true, [roleProductionManager], "GetAuditLogs"⟩ ]

/-! ## Claims -/

/-- C8: for an authorized caller on an existing work order, `AddProgress`
fails with `InvalidState` and creates no progress row when the order is
`pending` or `completed`; when it is `in_progress` it succeeds and creates
exactly one progress row with the given description and quantity.  (An error
response writes nothing: the returned state only changes on success.) -/
theorem c8_add_progress_requires_in_progress
    (db : DBState) (userId : Nat) (role : String) (woId : Nat)
    (req : CreateProgressReq) (wo : WorkOrder)
    (hfind : findWorkOrder db woId = some wo)
    (hauth : ¬(role = roleOperator ∧ wo.operatorId ≠ userId)) :
    ((wo.status = statusPending ∨ wo.status = statusCompleted) →
        createWorkOrderProgress db userId role woId req = .error .invalidState) ∧
    (wo.status = statusInProgress →
        createWorkOrderProgress db userId role woId req =
          .ok ({ db with progresses :=
                   db.progresses ++ [⟨wo.id, req.progressDesc, req.progressQuantity⟩] },
               ⟨wo.id, req.progressDesc, req.progressQuantity⟩)) := by
  unfold createWorkOrderProgress
  rw [hfind]
  simp only [hauth, if_false]
  constructor
  · intro hs
    rcases hs with hs | hs <;> simp [hs, statusPending, statusCompleted, statusInProgress]
  · intro hs
    simp [hs]

/-- C8 witness: a pending and an in-progress order, called by the assigned
operator. -/
theorem c8_witness :
    (findWorkOrder ⟨[], [⟨5, "WO-20250101-001", "Widget", 7, 10, 200, "pending", 2, 100, none⟩],
        [], [], []⟩ 5 =
      some ⟨5, "WO-20250101-001", "Widget", 7, 10, 200, "pending", 2, 100, none⟩ ∧
     ¬("operator" = roleOperator ∧
        (WorkOrder.operatorId ⟨5, "WO-20250101-001", "Widget", 7, 10, 200, "pending", 2, 100, none⟩) ≠ 2)) ∧
    ((("pending" : String) = statusPending ∨ ("pending" : String) = statusCompleted) →
        createWorkOrderProgress
          ⟨[], [⟨5, "WO-20250101-001", "Widget", 7, 10, 200, "pending", 2, 100, none⟩], [], [], []⟩
          2 "operator" 5 ⟨"half done", 5⟩ = .error .invalidState) := by
  refine ⟨⟨by decide, by decide⟩, ?_⟩
  exact (c8_add_progress_requires_in_progress
    ⟨[], [⟨5, "WO-20250101-001", "Widget", 7, 10, 200, "pending", 2, 100, none⟩], [], [], []⟩
    2 "operator" 5 ⟨"half done", 5⟩
    ⟨5, "WO-20250101-001", "Widget", 7, 10, 200, "pending", 2, 100, none⟩
    (by decide) (by decide)).1

/-- C9: every list endpoint computes `Pages = (count + limit - 1) / limit`
with no guard on `limit`, so a supplied `limit=0` makes the computation divide
by zero (`none` is the runtime panic): the handlers are not total for that
user-supplied value. -/
theorem c9_limit_zero_divides_by_zero
    (wos : List WorkOrder) (logs : List AuditLog) (userId : Nat) (pageQ : Option Int) :
    getWorkOrdersPagination wos pageQ (some 0) = none ∧
    getAssignedWorkOrdersPagination wos userId pageQ (some 0) = none ∧
    getAuditLogsPagination logs pageQ (some 0) = none := by
  refine ⟨?_, ?_, ?_⟩ <;>
    simp [getWorkOrdersPagination, getAssignedWorkOrdersPagination,
      getAuditLogsPagination, queryIntD, pagesOf, goDiv]

/-- C10: `Register` creates a user carrying exactly the requested role
(including `production_manager`), is registered on a public (pre-`Protected`)
route with no role guard, and rejects only duplicate usernames. -/
theorem c10_register_applies_requested_role
    (db : DBState) (req : RegisterReq) (newId : Nat)
    (hfree : ∀ u ∈ db.users, u.username ≠ req.username) :
    (∃ u : User,
        register db req newId = .ok ({ db with users := db.users ++ [u] }, u) ∧
        u.role = req.role ∧ u.username = req.username) ∧
    (∃ r ∈ setupRoutes, r.handler = "Register" ∧ r.requiresAuth = false ∧
        r.allowedRoles = []) ∧
    (∀ (db2 : DBState) (req2 : RegisterReq) (id2 : Nat),
        (∃ u ∈ db2.users, u.username = req2.username) →
        register db2 req2 id2 = .error .duplicateUsername) := by
  refine ⟨?_, ?_, ?_⟩
  · refine ⟨⟨newId, req.username, bcryptHash req.password, req.role⟩, ?_, rfl, rfl⟩
    unfold register
    have : db.users.find? (fun u => u.username = req.username) = none := by
      rw [List.find?_eq_none]
      intro u hu
      simpa using hfree u hu
    rw [this]
  · exact ⟨⟨"POST", "/api/auth/register", false, [], "Register"⟩, by decide, rfl, rfl, rfl⟩
  · intro db2 req2 id2 ⟨u, hu, hname⟩
    unfold register
    have : (db2.users.find? (fun u => u.username = req2.username)).isSome := by
      rw [List.find?_isSome]
      exact ⟨u, hu, by simpa using hname⟩
    rcases Option.isSome_iff_exists.mp this with ⟨v, hv⟩
    rw [hv]

/-- C10 witness: registering `alice` as a production manager into an empty
user table. -/
theorem c10_witness :
    (∀ u ∈ (DBState.users ⟨[], [], [], [], []⟩), u.username ≠ "alice") ∧
    (∃ u : User,
        register ⟨[], [], [], [], []⟩ ⟨"alice", "pw", "production_manager"⟩ 1 =
          .ok ({ (⟨[], [], [], [], []⟩ : DBState) with
                  users := (DBState.users ⟨[], [], [], [], []⟩) ++ [u] }, u) ∧
        u.role = ("production_manager" : String) ∧ u.username = ("alice" : String)) := by
  refine ⟨by decide, ?_⟩
  exact (c10_register_applies_requested_role ⟨[], [], [], [], []⟩
    ⟨"alice", "pw", "production_manager"⟩ 1 (by decide)).1

/-- C1: the audit-era `UpdateWorkOrderStatus` (the revision the current
routes' handlers belong to, file lines 1053–1148) applies a requested status
that is *not* reachable under the transition table: with a work order in the
terminal `completed` state and a manager requesting `pending`, the call
succeeds, the stored status becomes `pending`, and no `InvalidTransition`
rejection happens — the validation the earlier revision performed at file
lines 516–522 (and its history write) is absent.  (No history row is created
either — the whole history write was dropped in this revision.) -/
theorem c1_audited_update_status_applies_illegal_transition :
    isValidStatusTransition statusCompleted statusPending = false ∧
    (updateWorkOrderStatusV2
        ⟨[⟨1, "manager", "h", roleProductionManager⟩],
         [⟨5, "WO-20250101-001", "Widget", 7, 10, 200, statusCompleted, 2, 100, none⟩],
         [⟨5, statusPending, 0⟩, ⟨5, statusInProgress, 0⟩, ⟨5, statusCompleted, 7⟩],
         [], []⟩
        1 roleProductionManager 5 ⟨statusPending, 0⟩).toOption.map
        (fun r => (r.2.status, historyStatuses r.1 5)) =
      some (statusPending, [statusPending, statusInProgress, statusCompleted]) := by
  decide

/-- C3 counterexample: both revisions of the manager update (`UpdateWorkOrder`)
apply a patch status that violates the transition table instead of rejecting
it: on a `completed` order a patch with status `pending` succeeds and the
stored status becomes `pending` in the audit-era revision (lines 1003–1030) as
well as in the earlier one (lines 425–427). -/
theorem c3_counterexample_update_fields_skips_validation :
    isValidStatusTransition statusCompleted statusPending = false ∧
    (updateWorkOrderV2
        ⟨[⟨1, "manager", "h", roleProductionManager⟩],
         [⟨5, "WO-20250101-001", "Widget", 7, 10, 200, statusCompleted, 2, 100, none⟩],
         [], [], []⟩
        1 roleProductionManager 5 ⟨"", 0, none, statusPending, 0⟩).toOption.map
        (fun r => r.2.status) = some statusPending ∧
    (updateWorkOrderV1
        ⟨[⟨1, "manager", "h", roleProductionManager⟩],
         [⟨5, "WO-20250101-001", "Widget", 7, 10, 200, statusCompleted, 2, 100, none⟩],
         [], [], []⟩
        roleProductionManager 5 ⟨"", 0, none, statusPending, 0⟩).toOption.map
        (fun r => r.2.status) = some statusPending := by
  decide

/-- C3 amended: a manager update whose patch carries a non-empty status
applies it with no transition-table check — legal or not — and, in the
audit-era revision, a successful save always triggers an Audit Engine call
comparing the before/after snapshots (recorded when the actor exists). -/
theorem c3_update_fields_applies_status_and_audits
    (db : DBState) (userId : Nat) (woId : Nat) (req : UpdateWorkOrderReq)
    (wo : WorkOrder)
    (hfind : findWorkOrder db woId = some wo)
    (hstat : req.status ≠ "")
    (hactor : (db.users.find? (fun u => u.id = userId)).isSome) :
    ∃ (db' : DBState) (wo' : WorkOrder),
      updateWorkOrderV2 db userId roleProductionManager woId req = .ok (db', wo') ∧
      wo'.status = req.status ∧
      db'.workOrders = db.workOrders.map (fun w => if w.id = wo'.id then wo' else w) ∧
      db'.auditLogs = db.auditLogs ++
        [⟨userId, "update", "WorkOrder", wo'.id,
          (getChangedFields (woFields wo) (woFields wo')).map (fun e => (e.1, e.2.1)),
          (getChangedFields (woFields wo) (woFields wo')).map (fun e => (e.1, e.2.2)),
          "Work order " ++ wo'.workOrderNumber ++ " updated"⟩] := by
  rcases Option.isSome_iff_exists.mp hactor with ⟨actor, hactor'⟩
  unfold updateWorkOrderV2
  rw [hfind]
  simp only [if_neg (by simp : ¬ roleProductionManager ≠ roleProductionManager)]
  refine ⟨_, _, rfl, ?_, ?_, ?_⟩
  · simp only [hstat, if_true, ne_eq, not_false_iff, if_pos]
    rcases req.productionDeadline with _ | d <;>
      by_cases h1 : req.productName ≠ "" <;>
      by_cases h2 : req.quantity > 0 <;>
      by_cases h3 : req.operatorId ≠ 0 <;>
      simp [h1, h2, h3, hstat]
  · simp [saveWorkOrder, recordAudit, createLog, hactor']
  · simp [saveWorkOrder, recordAudit, createLog, hactor']

/-- C3 witness: a legal pending→in-progress patch on a concrete state. -/
theorem c3_witness :
    (findWorkOrder ⟨[⟨1, "manager", "h", roleProductionManager⟩],
        [⟨5, "WO-20250101-001", "Widget", 7, 10, 200, "pending", 2, 100, none⟩], [], [], []⟩ 5 =
        some ⟨5, "WO-20250101-001", "Widget", 7, 10, 200, "pending", 2, 100, none⟩ ∧
      ("in_progress" : String) ≠ "" ∧
      ((DBState.users ⟨[⟨1, "manager", "h", roleProductionManager⟩],
          [⟨5, "WO-20250101-001", "Widget", 7, 10, 200, "pending", 2, 100, none⟩],
          [], [], []⟩).find? (fun u => u.id = 1)).isSome) ∧
    (∃ (db' : DBState) (wo' : WorkOrder),
      updateWorkOrderV2
          ⟨[⟨1, "manager", "h", roleProductionManager⟩],
           [⟨5, "WO-20250101-001", "Widget", 7, 10, 200, "pending", 2, 100, none⟩],
           [], [], []⟩
          1 roleProductionManager 5 ⟨"", 0, none, "in_progress", 0⟩ = .ok (db', wo') ∧
      wo'.status = ("in_progress" : String)) := by
  refine ⟨⟨by decide, by decide, by decide⟩, ?_⟩
  rcases c3_update_fields_applies_status_and_audits
      ⟨[⟨1, "manager", "h", roleProductionManager⟩],
       [⟨5, "WO-20250101-001", "Widget", 7, 10, 200, "pending", 2, 100, none⟩],
       [], [], []⟩
      1 5 ⟨"", 0, none, "in_progress", 0⟩
      ⟨5, "WO-20250101-001", "Widget", 7, 10, 200, "pending", 2, 100, none⟩
      (by decide) (by decide) (by decide) with ⟨db', wo', h1, h2, _, _⟩
  exact ⟨db', wo', h1, h2⟩

/-- A field pair that cannot yield a diff entry: the base json tag is one of
the bookkeeping timestamps, or the json tag is `"-"` (how the models'
`DeletedAt` column is suppressed), or the values are simply equal. -/
theorem fieldDiff_eq_none (fo fn : GoField)
    (h : jsonBaseTag fo.jsonTag ∈ ignoredFields ∨ fo.jsonTag = "-" ∨ fo.value = fn.value) :
    fieldDiff fo fn = none := by
  unfold fieldDiff
  by_cases he : fo.exported
  · by_cases ha : fo.auditTag = "-"
    · simp [he, ha]
    · by_cases ht : fo.jsonTag = "" ∨ fo.jsonTag = "-"
      · simp [he, ha, ht]
      · rcases h with h | h | h
        · simp [he, ha, ht, h]
        · exact absurd (Or.inr h) ht
        · simp [he, ha, ht, h]
  · simp [he]

/-- A diff entry's name is the base json tag of its field and never one of the
ignored bookkeeping tags. -/
theorem fieldDiff_name_not_ignored (fo fn : GoField) (e : String × GoValue × GoValue)
    (h : fieldDiff fo fn = some e) : e.1 ∉ ignoredFields := by
  have he1 : e.1 = jsonBaseTag fo.jsonTag ∧ jsonBaseTag fo.jsonTag ∉ ignoredFields := by
    unfold fieldDiff at h
    split at h
    · exact absurd h (by simp)
    · split at h
      · exact absurd h (by simp)
      · split at h
        · exact absurd h (by simp)
        · split at h
          · exact absurd h (by simp)
          · by_cases hig : jsonBaseTag fo.jsonTag ∈ ignoredFields
            · simp [hig] at h
            · by_cases hnn : normalizeValue fo.value = normalizeValue fn.value
              · simp [hig, hnn] at h
              · simp only [hig, hnn, if_neg, if_false, not_false_iff,
                  ite_false, Option.some.injEq] at h
                subst h
                exact ⟨rfl, hig⟩
  rw [he1.1]; exact he1.2

/-- C4: snapshots of the same struct type that differ only in the bookkeeping
timestamp fields (`created_at`, `updated_at`, and the `deleted_at` column,
which the models suppress with json tag `"-"`) produce an empty changed-field
set, and those fields never appear in any computed diff. -/
theorem c4_changed_fields_ignore_bookkeeping
    (old new : List GoField)
    (hdiff : ∀ p ∈ old.zip new,
        jsonBaseTag p.1.jsonTag ∈ ignoredFields ∨ p.1.jsonTag = "-" ∨
          p.1.value = p.2.value) :
    getChangedFields old new = [] ∧
    ∀ (o n : List GoField) (e : String × GoValue × GoValue),
      e ∈ getChangedFields o n → e.1 ∉ ignoredFields := by
  constructor
  · induction old generalizing new with
    | nil => cases new <;> rfl
    | cons fo os ih =>
        cases new with
        | nil => rfl
        | cons fn ns =>
            have h0 := hdiff (fo, fn) (by simp)
            have hrest : ∀ p ∈ os.zip ns,
                jsonBaseTag p.1.jsonTag ∈ ignoredFields ∨ p.1.jsonTag = "-" ∨
                  p.1.value = p.2.value := by
              intro p hp
              exact hdiff p (by simp [hp])
            simpa [getChangedFields, fieldDiff_eq_none fo fn h0] using ih ns hrest
  · intro o n
    induction o generalizing n with
    | nil => intro e he; cases n <;> simp [getChangedFields] at he
    | cons fo os ih =>
        intro e he
        cases n with
        | nil => simp [getChangedFields] at he
        | cons fn ns =>
            simp only [getChangedFields] at he
            rcases hd : fieldDiff fo fn with _ | e'
            · rw [hd] at he
              exact ih ns e he
            · rw [hd] at he
              rcases List.mem_cons.mp he with h | h
              · subst h; exact fieldDiff_name_not_ignored fo fn e hd
              · exact ih ns e h

/-- C4 witness: two `WorkOrder` snapshots that agree except in `CreatedAt` /
`UpdatedAt` / `DeletedAt` diff to the empty changed-field set. -/
theorem c4_witness :
    (∀ p ∈ (woFields ⟨5, "WO-20250101-001", "Widget", 7, 10, 200, "pending", 2, 100, none⟩).zip
        (woFields ⟨5, "WO-20250101-001", "Widget", 7, 10, 200, "pending", 2, 999, some 1234⟩),
      jsonBaseTag p.1.jsonTag ∈ ignoredFields ∨ p.1.jsonTag = "-" ∨
        p.1.value = p.2.value) ∧
    getChangedFields
        (woFields ⟨5, "WO-20250101-001", "Widget", 7, 10, 200, "pending", 2, 100, none⟩)
        (woFields ⟨5, "WO-20250101-001", "Widget", 7, 10, 200, "pending", 2, 999, some 1234⟩) = [] := by
  refine ⟨by decide, ?_⟩
  exact (c4_changed_fields_ignore_bookkeeping
    (woFields ⟨5, "WO-20250101-001", "Widget", 7, 10, 200, "pending", 2, 100, none⟩)
    (woFields ⟨5, "WO-20250101-001", "Widget", 7, 10, 200, "pending", 2, 999, some 1234⟩)
    (by decide)).1

/-- When every status is one of the three legal values, the three per-status
filters partition the list. -/
theorem statusCountsPartition (l : List WorkOrder)
    (h : ∀ wo ∈ l, wo.status = statusPending ∨ wo.status = statusInProgress ∨
        wo.status = statusCompleted) :
    (l.filter (fun wo => wo.status = statusPending)).length +
      (l.filter (fun wo => wo.status = statusInProgress)).length +
      (l.filter (fun wo => wo.status = statusCompleted)).length = l.length := by
  induction l with
  | nil => rfl
  | cons wo rest ih =>
      have hrest := fun x hx => h x (List.mem_cons_of_mem wo hx)
      have ihr := ih hrest
      rcases h wo (by simp) with hs | hs | hs <;>
        simp only [List.filter_cons, hs, decide_eq_true_eq] <;>
        norm_num [show statusPending ≠ statusInProgress from by decide,
          show statusPending ≠ statusCompleted from by decide,
          show statusInProgress ≠ statusPending from by decide,
          show statusInProgress ≠ statusCompleted from by decide,
          show statusCompleted ≠ statusPending from by decide,
          show statusCompleted ≠ statusInProgress from by decide] <;>
        omega

/-- C6 counterexample: the dashboard does *not* apply its window to the
production deadline.  A single live order created at instant 0 with deadline
inside the window `[100, 100]` is counted by the deadline-filtering report the
claim describes, but the dashboard — which filters on `created_at` (part_006
lines 143–157) — counts nothing. -/
theorem c6_counterexample_dashboard_filters_created_at :
    getWorkOrderDashboard
        [⟨5, "WO-20250101-001", "Widget", 7, 10, 150, "pending", 2, 0, none⟩]
        roleProductionManager 1 ⟨some 100, some 100⟩ ≠
      specDashboardOnDeadline
        [⟨5, "WO-20250101-001", "Widget", 7, 10, 150, "pending", 2, 0, none⟩]
        roleProductionManager 1 ⟨some 100, some 100⟩ ∧
    (getWorkOrderDashboard
        [⟨5, "WO-20250101-001", "Widget", 7, 10, 150, "pending", 2, 0, none⟩]
        roleProductionManager 1 ⟨some 100, some 100⟩).total = 0 ∧
    inWindow ⟨some 100, some 100⟩ 150 = true := by
  decide

/-- C6 amended: the dashboard applies its window to `created_at`; the
per-product summary applies it to `production_deadline`; the by-operator
summary applies it to `created_at`; a fully-given window is inclusive of the
start and exclusive of the day after the end; and the dashboard's three
per-status counts partition its total when every status is well-formed. -/
theorem c6_report_window_fields
    (wos : List WorkOrder) (role : String) (userId operatorId : Nat)
    (w : DateWindow) (yearStart yearEnd : Int)
    (hstat : ∀ wo ∈ wos, wo.status = statusPending ∨ wo.status = statusInProgress ∨
        wo.status = statusCompleted) :
    (let d := getWorkOrderDashboard wos role userId w
     d.pending + d.inProgress + d.completed = d.total) ∧
    (getWorkOrderDashboard wos role userId w).total =
      (wos.filter (fun wo => wo.deletedAt = none && inWindow w wo.createdAt &&
        (role = roleProductionManager || wo.operatorId = userId))).length ∧
    summaryBase wos w yearStart yearEnd =
      wos.filter (fun wo => wo.deletedAt = none &&
        inSummaryWindow w yearStart yearEnd wo.productionDeadline) ∧
    summaryByOperatorBase wos operatorId w yearStart yearEnd =
      wos.filter (fun wo => wo.deletedAt = none && wo.operatorId = operatorId &&
        inSummaryWindow w yearStart yearEnd wo.createdAt) ∧
    (∀ s e t : Int, inWindow ⟨some s, some e⟩ t = (decide (s ≤ t) && decide (t < e + oneDay))) := by
  refine ⟨?_, rfl, rfl, rfl, fun s e t => rfl⟩
  show (getWorkOrderDashboard wos role userId w).pending +
      (getWorkOrderDashboard wos role userId w).inProgress +
      (getWorkOrderDashboard wos role userId w).completed =
      (getWorkOrderDashboard wos role userId w).total
  unfold getWorkOrderDashboard
  simp only
  generalize hbase : wos.filter _ = base
  have hb : ∀ wo ∈ base, wo.status = statusPending ∨ wo.status = statusInProgress ∨
      wo.status = statusCompleted := by
    intro wo hwo
    rw [← hbase] at hwo
    exact hstat wo (List.mem_of_mem_filter hwo)
  exact statusCountsPartition base hb

/-- C6 witness: the report characterizations at a concrete one-order state. -/
theorem c6_witness :
    (∀ wo ∈ [(⟨5, "WO-20250101-001", "Widget", 7, 10, 150, "pending", 2, 120, none⟩ : WorkOrder)],
        wo.status = statusPending ∨ wo.status = statusInProgress ∨ wo.status = statusCompleted) ∧
    (let d := getWorkOrderDashboard
        [⟨5, "WO-20250101-001", "Widget", 7, 10, 150, "pending", 2, 120, none⟩]
        roleProductionManager 1 ⟨some 100, some 100⟩
     d.pending + d.inProgress + d.completed = d.total) := by
  refine ⟨by decide, ?_⟩
  exact (c6_report_window_fields
    [⟨5, "WO-20250101-001", "Widget", 7, 10, 150, "pending", 2, 120, none⟩]
    roleProductionManager 1 2 ⟨some 100, some 100⟩ 0 0 (by decide)).1

/-- Counting the orders of one product is counting that name in the projected
name list. -/
theorem filter_length_eq_count (base : List WorkOrder) (p : String) :
    (base.filter (fun wo => wo.productName = p)).length =
      (base.map (fun wo => wo.productName)).count p := by
  induction base with
  | nil => rfl
  | cons wo rest ih =>
      by_cases h : wo.productName = p <;>
        simp [List.filter_cons, List.count_cons, h, ih]

/-- Summing each distinct name's multiplicity recovers the list length. -/
theorem sum_dedup_count (names : List String) :
    (names.dedup.map (fun p => names.count p)).sum = names.length := by
  have h1 := List.sum_toFinset (fun p => names.count p) names.nodup_dedup
  have h2 : names.dedup.toFinset = names.toFinset :=
    List.toFinset.ext_iff.mpr (fun x => List.mem_dedup)
  rw [← h1, h2]
  exact List.sum_toFinset_count_eq_length names

/-- The per-product `TotalWO` counts sum to the base-set size. -/
theorem sum_totalWO (base : List WorkOrder) :
    (((base.map (fun wo => wo.productName)).dedup.map
        (fun p => ((base.filter (fun wo => wo.productName = p)).length : Int))).sum)
      = (base.length : Int) := by
  have hcast :
      ((base.map (fun wo => wo.productName)).dedup.map
          (fun p => ((base.filter (fun wo => wo.productName = p)).length : Int))).sum =
        ((((base.map (fun wo => wo.productName)).dedup.map
            (fun p => (base.filter (fun wo => wo.productName = p)).length)).sum : Nat) : Int) := by
    rw [Nat.cast_list_sum, List.map_map]
    rfl
  rw [hcast]
  have h2 : ((base.map (fun wo => wo.productName)).dedup.map
      (fun p => (base.filter (fun wo => wo.productName = p)).length)).sum =
      base.length := by
    have h3 : ((base.map (fun wo => wo.productName)).dedup.map
        (fun p => (base.filter (fun wo => wo.productName = p)).length)) =
        ((base.map (fun wo => wo.productName)).dedup.map
          (fun p => (base.map (fun wo => wo.productName)).count p)) := by
      apply List.map_congr_left
      intro p _
      exact filter_length_eq_count base p
    rw [h3, sum_dedup_count]
    simp
  rw [h2]

/-- C7: over any window, the per-product `TotalWO` values sum to the grand
total of work orders in the window; when the window is non-empty a synthetic
`Total` row aggregating the product rows is appended, carrying the grand total
and the literal percentage 100; when the window holds no orders the report is
the empty row list — the division guards leave every percentage/achievement
field zero instead of failing. -/
theorem c7_summary_total_invariant (wos : List WorkOrder) (w : DateWindow)
    (yearStart yearEnd : Int) :
    (summaryBase wos w yearStart yearEnd = [] →
        getWorkOrderSummary wos w yearStart yearEnd = []) ∧
    (summaryBase wos w yearStart yearEnd ≠ [] →
        ∃ prows : List SummaryRow,
          getWorkOrderSummary wos w yearStart yearEnd =
            prows ++ [summaryTotalRow prows ((summaryBase wos w yearStart yearEnd).length : Int)] ∧
          (prows.map (fun r => r.totalWO)).sum =
            ((summaryBase wos w yearStart yearEnd).length : Int) ∧
          (summaryTotalRow prows ((summaryBase wos w yearStart yearEnd).length : Int)).productName = "Total" ∧
          (summaryTotalRow prows ((summaryBase wos w yearStart yearEnd).length : Int)).percentage = 100 ∧
          (summaryTotalRow prows ((summaryBase wos w yearStart yearEnd).length : Int)).totalWO =
            ((summaryBase wos w yearStart yearEnd).length : Int)) := by
  constructor
  · intro h
    simp [getWorkOrderSummary, h]
  · intro h
    refine ⟨((summaryBase wos w yearStart yearEnd).map (fun wo => wo.productName)).dedup.map
      (summaryRowFor (summaryBase wos w yearStart yearEnd)
        ((summaryBase wos w yearStart yearEnd).length : Int)), ?_, ?_, rfl, rfl, rfl⟩
    · have hne : ¬ ((((summaryBase wos w yearStart yearEnd).map
          (fun wo => wo.productName)).dedup.map
          (summaryRowFor (summaryBase wos w yearStart yearEnd)
            ((summaryBase wos w yearStart yearEnd).length : Int))).isEmpty = true) := by
        intro hc
        rw [List.isEmpty_iff] at hc
        rw [List.map_eq_nil_iff] at hc
        rw [List.dedup_eq_nil] at hc
        rw [List.map_eq_nil_iff] at hc
        exact h hc
      simp only [getWorkOrderSummary]
      rw [if_neg hne]
    · have hmap : (((summaryBase wos w yearStart yearEnd).map
          (fun wo => wo.productName)).dedup.map
          (summaryRowFor (summaryBase wos w yearStart yearEnd)
            ((summaryBase wos w yearStart yearEnd).length : Int))).map (fun r => r.totalWO) =
          ((summaryBase wos w yearStart yearEnd).map (fun wo => wo.productName)).dedup.map
            (fun p => (((summaryBase wos w yearStart yearEnd).filter
              (fun wo => wo.productName = p)).length : Int)) := by
        rw [List.map_map]
        rfl
      rw [hmap]
      exact sum_totalWO (summaryBase wos w yearStart yearEnd)

/-- C7 witness: a two-product window. -/
theorem c7_witness :
    (summaryBase
        [⟨1, "WO-20250101-001", "Widget", 7, 10, 150, "completed", 2, 0, none⟩,
         ⟨2, "WO-20250101-002", "Gadget", 3, 5, 160, "pending", 2, 0, none⟩,
         ⟨3, "WO-20250101-003", "Widget", 4, 6, 170, "pending", 2, 0, none⟩]
        ⟨some 100, some 100⟩ 0 0 ≠ []) ∧
    (∃ prows : List SummaryRow,
      getWorkOrderSummary
          [⟨1, "WO-20250101-001", "Widget", 7, 10, 150, "completed", 2, 0, none⟩,
           ⟨2, "WO-20250101-002", "Gadget", 3, 5, 160, "pending", 2, 0, none⟩,
           ⟨3, "WO-20250101-003", "Widget", 4, 6, 170, "pending", 2, 0, none⟩]
          ⟨some 100, some 100⟩ 0 0 =
        prows ++ [summaryTotalRow prows ((summaryBase
          [⟨1, "WO-20250101-001", "Widget", 7, 10, 150, "completed", 2, 0, none⟩,
           ⟨2, "WO-20250101-002", "Gadget", 3, 5, 160, "pending", 2, 0, none⟩,
           ⟨3, "WO-20250101-003", "Widget", 4, 6, 170, "pending", 2, 0, none⟩]
          ⟨some 100, some 100⟩ 0 0).length : Int)] ∧
      (prows.map (fun r => r.totalWO)).sum = ((summaryBase
          [⟨1, "WO-20250101-001", "Widget", 7, 10, 150, "completed", 2, 0, none⟩,
           ⟨2, "WO-20250101-002", "Gadget", 3, 5, 160, "pending", 2, 0, none⟩,
           ⟨3, "WO-20250101-003", "Widget", 4, 6, 170, "pending", 2, 0, none⟩]
          ⟨some 100, some 100⟩ 0 0).length : Int) ∧
      (summaryTotalRow prows ((summaryBase
          [⟨1, "WO-20250101-001", "Widget", 7, 10, 150, "completed", 2, 0, none⟩,
           ⟨2, "WO-20250101-002", "Gadget", 3, 5, 160, "pending", 2, 0, none⟩,
           ⟨3, "WO-20250101-003", "Widget", 4, 6, 170, "pending", 2, 0, none⟩]
          ⟨some 100, some 100⟩ 0 0).length : Int)).productName = "Total" ∧
      (summaryTotalRow prows ((summaryBase
          [⟨1, "WO-20250101-001", "Widget", 7, 10, 150, "completed", 2, 0, none⟩,
           ⟨2, "WO-20250101-002", "Gadget", 3, 5, 160, "pending", 2, 0, none⟩,
           ⟨3, "WO-20250101-003", "Widget", 4, 6, 170, "pending", 2, 0, none⟩]
          ⟨some 100, some 100⟩ 0 0).length : Int)).percentage = 100 ∧
      (summaryTotalRow prows ((summaryBase
          [⟨1, "WO-20250101-001", "Widget", 7, 10, 150, "completed", 2, 0, none⟩,
           ⟨2, "WO-20250101-002", "Gadget", 3, 5, 160, "pending", 2, 0, none⟩,
           ⟨3, "WO-20250101-003", "Widget", 4, 6, 170, "pending", 2, 0, none⟩]
          ⟨some 100, some 100⟩ 0 0).length : Int)).totalWO = ((summaryBase
          [⟨1, "WO-20250101-001", "Widget", 7, 10, 150, "completed", 2, 0, none⟩,
           ⟨2, "WO-20250101-002", "Gadget", 3, 5, 160, "pending", 2, 0, none⟩,
           ⟨3, "WO-20250101-003", "Widget", 4, 6, 170, "pending", 2, 0, none⟩]
          ⟨some 100, some 100⟩ 0 0).length : Int)) := by
  refine ⟨by decide, ?_⟩
  exact (c7_summary_total_invariant
    [⟨1, "WO-20250101-001", "Widget", 7, 10, 150, "completed", 2, 0, none⟩,
     ⟨2, "WO-20250101-002", "Gadget", 3, 5, 160, "pending", 2, 0, none⟩,
     ⟨3, "WO-20250101-003", "Widget", 4, 6, 170, "pending", 2, 0, none⟩]
    ⟨some 100, some 100⟩ 0 0).2 (by decide)

/-- Extending a legal chain by one legal edge from its last element. -/
theorem validChainFrom_append (l : List String) (c prev s : String)
    (hchain : validChainFrom c l = true)
    (hlast : (c :: l).getLast? = some prev)
    (htrans : isValidStatusTransition prev s = true) :
    validChainFrom c (l ++ [s]) = true := by
  induction l generalizing c with
  | nil =>
      simp only [List.getLast?_singleton, Option.some.injEq] at hlast
      subst hlast
      simp [validChainFrom, htrans]
  | cons d rest ih =>
      simp only [validChainFrom, Bool.and_eq_true] at hchain
      have hlast' : (d :: rest).getLast? = some prev := by
        rw [List.getLast?_cons_cons] at hlast
        exact hlast
      simp only [List.cons_append, validChainFrom, Bool.and_eq_true]
      exact ⟨hchain.1, ih d hchain.2 hlast'⟩

/-- Extending a valid status path by one legal edge from its last status. -/
theorem validStatusPath_append (l : List String) (prev s : String)
    (hpath : validStatusPath l = true) (hlast : l.getLast? = some prev)
    (htrans : isValidStatusTransition prev s = true) :
    validStatusPath (l ++ [s]) = true := by
  cases l with
  | nil => exact absurd hpath (by decide)
  | cons c rest =>
      simp only [validStatusPath, Bool.and_eq_true, decide_eq_true_eq] at hpath
      simp only [List.cons_append, validStatusPath, Bool.and_eq_true, decide_eq_true_eq]
      exact ⟨hpath.1, validChainFrom_append rest c prev s hpath.2 hlast htrans⟩

/-- After a `Save`, looking the work order up again returns the saved row,
provided some row with that id existed. -/
theorem find_save_list (l : List WorkOrder) (wo2 : WorkOrder) (woId : Nat)
    (hid : wo2.id = woId) (hlive : wo2.deletedAt = none)
    (hex : ∃ w ∈ l, w.id = woId) :
    (l.map (fun w => if w.id = wo2.id then wo2 else w)).find?
      (fun wo => wo.id = woId && wo.deletedAt = none) = some wo2 := by
  induction l with
  | nil =>
      rcases hex with ⟨w, hw, _⟩
      cases hw
  | cons w rest ih =>
      by_cases hw : w.id = woId
      · have hrepl : (if w.id = wo2.id then wo2 else w) = wo2 := by
          rw [hid]; simp [hw]
        simp only [List.map_cons, hrepl]
        exact List.find?_cons_of_pos _ (by simp [hid, hlive])
      · have hrepl : (if w.id = wo2.id then wo2 else w) = w := by
          rw [hid]; simp [hw]
        simp only [List.map_cons, hrepl]
        rw [List.find?_cons_of_neg _ (by simp [hw])]
        rcases hex with ⟨w', hw', hid'⟩
        rcases List.mem_cons.mp hw' with rfl | hmem
        · exact absurd hid' hw
        · exact ih ⟨w', hmem, hid'⟩

/-- Appending a history row for the work order appends its status to the
history projection. -/
theorem historyStatuses_append_hit (db : DBState) (woId : Nat) (s : String) (q : Int) :
    historyStatuses { db with histories := db.histories ++ [⟨woId, s, q⟩] } woId =
      historyStatuses db woId ++ [s] := by
  simp [historyStatuses, List.filter_append]

/-- One validated `UpdateStatus` call preserves the history invariant: the
order remains findable, the history stays a valid path, and the stored status
stays the last history entry. -/
theorem statusInv_step (db : DBState) (userId : Nat) (role : String) (woId : Nat)
    (r : UpdateStatusReq) (wo : WorkOrder)
    (hfind : findWorkOrder db woId = some wo)
    (hlast : (historyStatuses db woId).getLast? = some wo.status)
    (hpath : validStatusPath (historyStatuses db woId) = true) :
    ∃ wo', findWorkOrder (stepStatusV1 userId role woId db r) woId = some wo' ∧
      (historyStatuses (stepStatusV1 userId role woId db r) woId).getLast? = some wo'.status ∧
      validStatusPath (historyStatuses (stepStatusV1 userId role woId db r) woId) = true := by
  have hpred := List.find?_some hfind
  simp only [Bool.and_eq_true, decide_eq_true_eq] at hpred
  have hmem := List.mem_of_find?_eq_some hfind
  by_cases hforb : role = roleOperator ∧ wo.operatorId ≠ userId
  · obtain ⟨hf1, hf2⟩ := hforb
    have hstep : stepStatusV1 userId role woId db r = db := by
      simp [stepStatusV1, updateWorkOrderStatusV1, hfind, hf1, hf2]
    rw [hstep]
    exact ⟨wo, hfind, hlast, hpath⟩
  · by_cases htr : isValidStatusTransition wo.status r.status = true
    · have hstep : stepStatusV1 userId role woId db r =
          { saveWorkOrder db (if r.quantity > 0
              then { { wo with status := r.status } with quantity := r.quantity }
              else { wo with status := r.status }) with
            histories := (saveWorkOrder db (if r.quantity > 0
              then { { wo with status := r.status } with quantity := r.quantity }
              else { wo with status := r.status })).histories ++
              [⟨(if r.quantity > 0
                  then { { wo with status := r.status } with quantity := r.quantity }
                  else { wo with status := r.status }).id, r.status,
                (if r.quantity > 0
                  then { { wo with status := r.status } with quantity := r.quantity }
                  else { wo with status := r.status }).quantity⟩] } := by
        simp only [stepStatusV1, updateWorkOrderStatusV1, hfind]
        rw [if_neg hforb, if_neg (by simpa using htr)]
      generalize hwo2 : (if r.quantity > 0
          then { { wo with status := r.status } with quantity := r.quantity }
          else { wo with status := r.status } : WorkOrder) = wo2 at hstep
      have hid2 : wo2.id = woId := by
        rw [← hwo2]; by_cases hq : r.quantity > 0 <;> simp [hq, hpred.1]
      have hlive2 : wo2.deletedAt = none := by
        rw [← hwo2]; by_cases hq : r.quantity > 0 <;> simp [hq, hpred.2]
      have hst2 : wo2.status = r.status := by
        rw [← hwo2]; by_cases hq : r.quantity > 0 <;> simp [hq]
      rw [hstep]
      refine ⟨wo2, ?_, ?_, ?_⟩
      · have hshape : findWorkOrder
            { saveWorkOrder db wo2 with histories :=
                (saveWorkOrder db wo2).histories ++ [⟨wo2.id, r.status, wo2.quantity⟩] } woId =
            (db.workOrders.map (fun w => if w.id = wo2.id then wo2 else w)).find?
              (fun wo => wo.id = woId && wo.deletedAt = none) := rfl
        rw [hshape]
        exact find_save_list db.workOrders wo2 woId hid2 hlive2 ⟨wo, hmem, hpred.1⟩
      · have hh : historyStatuses
            { saveWorkOrder db wo2 with histories :=
                (saveWorkOrder db wo2).histories ++ [⟨wo2.id, r.status, wo2.quantity⟩] } woId =
            historyStatuses db woId ++ [r.status] := by
          rw [hid2]
          exact historyStatuses_append_hit (saveWorkOrder db wo2) woId r.status wo2.quantity
        rw [hh, List.getLast?_concat, hst2]
      · have hh : historyStatuses
            { saveWorkOrder db wo2 with histories :=
                (saveWorkOrder db wo2).histories ++ [⟨wo2.id, r.status, wo2.quantity⟩] } woId =
            historyStatuses db woId ++ [r.status] := by
          rw [hid2]
          exact historyStatuses_append_hit (saveWorkOrder db wo2) woId r.status wo2.quantity
        rw [hh]
        exact validStatusPath_append _ wo.status r.status hpath hlast htr
    · have hstep : stepStatusV1 userId role woId db r = db := by
        simp only [stepStatusV1, updateWorkOrderStatusV1, hfind]
        rw [if_neg hforb, if_pos (by simpa using htr)]
      rw [hstep]
      exact ⟨wo, hfind, hlast, hpath⟩

/-- Any sequence of validated `UpdateStatus` calls preserves a valid history
path. -/
theorem statusInv_apply (userId : Nat) (role : String) (woId : Nat)
    (ops : List UpdateStatusReq) (db : DBState)
    (hinv : ∃ wo, findWorkOrder db woId = some wo ∧
        (historyStatuses db woId).getLast? = some wo.status ∧
        validStatusPath (historyStatuses db woId) = true) :
    validStatusPath (historyStatuses (applyStatusOpsV1 userId role woId db ops) woId) = true := by
  induction ops generalizing db with
  | nil =>
      rcases hinv with ⟨wo, _, _, hp⟩
      exact hp
  | cons r rs ih =>
      rcases hinv with ⟨wo, hf, hl, hp⟩
      rcases statusInv_step db userId role woId r wo hf hl hp with ⟨wo', h1, h2, h3⟩
      exact ih (stepStatusV1 userId role woId db r) ⟨wo', h1, h2, h3⟩

/-- C2 counterexample: the claim fails once a manager field-update
(`UpdateWorkOrder`, history-writing revision, file lines 425–444) is part of
the sequence: after `Create` the patch `status := completed` is applied with
no transition check, and the history becomes `pending, completed` — not a
path in the transition graph (`pending → completed` is not an edge). -/
theorem c2_counterexample_update_fields_breaks_path :
    ((createWorkOrder
        ⟨[⟨1, "manager", "h", roleProductionManager⟩, ⟨2, "op1", "h", roleOperator⟩],
         [], [], [], []⟩
        roleProductionManager ⟨"Widget", 10, 500, 2⟩ "20250101" 100 1).toOption.bind
      (fun r1 => (updateWorkOrderV1 r1.1 roleProductionManager 1
          ⟨"", 0, none, statusCompleted, 0⟩).toOption.map
        (fun r2 => historyStatuses r2.1 1))) =
      some [statusPending, statusCompleted] ∧
    validStatusPath [statusPending, statusCompleted] = false := by
  decide

/-- C2 amended: for sequences made of `Create` followed by `UpdateStatus`
calls of the validated revision, the history of the created order is always a
valid path from `pending`; adding the history-writing `UpdateFields` revision
to the sequence can break this (see the counterexample). -/
theorem c2_history_is_valid_path
    (db : DBState) (role : String) (req : CreateWorkOrderReq) (today : String)
    (now : Int) (newId userId : Nat) (uRole : String) (ops : List UpdateStatusReq)
    (db1 : DBState) (wo : WorkOrder)
    (hcr : createWorkOrder db role req today now newId = .ok (db1, wo))
    (hid : ∀ w ∈ db.workOrders, w.id ≠ newId)
    (hh : ∀ h ∈ db.histories, h.workOrderId ≠ newId) :
    validStatusPath
      (historyStatuses (applyStatusOpsV1 userId uRole newId db1 ops) newId) = true := by
  unfold createWorkOrder at hcr
  by_cases hrole : role ≠ roleProductionManager
  · rw [if_pos hrole] at hcr
    exact absurd hcr (by simp)
  · rw [if_neg hrole] at hcr
    rcases hop : db.users.find? (fun u => u.id = req.operatorId && u.role = roleOperator)
      with _ | u
    · rw [hop] at hcr
      exact absurd hcr (by simp)
    · rw [hop] at hcr
      simp only [Except.ok.injEq, Prod.mk.injEq] at hcr
      obtain ⟨hdb, hwo⟩ := hcr
      have hh1 : historyStatuses db1 newId = [statusPending] := by
        rw [← hdb]
        unfold historyStatuses
        simp only [List.filter_append]
        rw [List.filter_eq_nil_iff.mpr (by intro x hmem; simp [hh x hmem])]
        simp
      apply statusInv_apply
      refine ⟨wo, ?_, ?_, ?_⟩
      · rw [← hdb, ← hwo]
        unfold findWorkOrder
        simp only
        rw [List.find?_append]
        have hnone : db.workOrders.find?
            (fun wo => wo.id = newId && wo.deletedAt = none) = none := by
          rw [List.find?_eq_none]
          intro w hw
          simp [hid w hw]
        rw [hnone]
        simp
      · rw [hh1, ← hwo]
        rfl
      · rw [hh1]
        decide

/-- C2 witness: create, then the two legal transitions, on a concrete state. -/
theorem c2_witness :
    (createWorkOrder
        ⟨[⟨1, "manager", "h", roleProductionManager⟩, ⟨2, "op1", "h", roleOperator⟩],
         [], [], [], []⟩
        roleProductionManager ⟨"Widget", 10, 500, 2⟩ "20250101" 100 1 =
      .ok (⟨[⟨1, "manager", "h", roleProductionManager⟩, ⟨2, "op1", "h", roleOperator⟩],
            [⟨1, "WO-20250101-001", "Widget", 10, 0, 500, statusPending, 2, 100, none⟩],
            [⟨1, statusPending, 0⟩], [], []⟩,
           ⟨1, "WO-20250101-001", "Widget", 10, 0, 500, statusPending, 2, 100, none⟩)) ∧
    validStatusPath
      (historyStatuses
        (applyStatusOpsV1 2 roleOperator 1
          ⟨[⟨1, "manager", "h", roleProductionManager⟩, ⟨2, "op1", "h", roleOperator⟩],
            [⟨1, "WO-20250101-001", "Widget", 10, 0, 500, statusPending, 2, 100, none⟩],
            [⟨1, statusPending, 0⟩], [], []⟩
          [⟨statusInProgress, 5⟩, ⟨statusCompleted, 10⟩]) 1) = true := by
  refine ⟨by rfl, ?_⟩
  exact c2_history_is_valid_path
    ⟨[⟨1, "manager", "h", roleProductionManager⟩, ⟨2, "op1", "h", roleOperator⟩],
     [], [], [], []⟩
    roleProductionManager ⟨"Widget", 10, 500, 2⟩ "20250101" 100 1 2 roleOperator
    [⟨statusInProgress, 5⟩, ⟨statusCompleted, 10⟩]
    ⟨[⟨1, "manager", "h", roleProductionManager⟩, ⟨2, "op1", "h", roleOperator⟩],
     [⟨1, "WO-20250101-001", "Widget", 10, 0, 500, statusPending, 2, 100, none⟩],
     [⟨1, statusPending, 0⟩], [], []⟩
    ⟨1, "WO-20250101-001", "Widget", 10, 0, 500, statusPending, 2, 100, none⟩
    (by rfl) (by decide) (by decide)

/-! ### Work-order-number generation: order, padding and trace lemmas (C5) -/

/-- Strict lexicographic order is irreflexive. -/
theorem lexLt_irrefl : ∀ cs : List Char, lexLt cs cs = false
  | [] => rfl
  | c :: cs => by
      simp only [lexLt, Nat.lt_irrefl, if_false]
      exact lexLt_irrefl cs

/-- Strict lexicographic order is asymmetric. -/
theorem lexLt_asymm : ∀ as bs : List Char, lexLt as bs = true → lexLt bs as = false
  | [], [] => by simp [lexLt]
  | [], _ :: _ => fun _ => rfl
  | _ :: _, [] => by simp [lexLt]
  | a :: as, b :: bs => by
      intro h
      simp only [lexLt] at h ⊢
      by_cases h1 : a.toNat < b.toNat
      · rw [if_neg (by omega), if_pos h1]
      · by_cases h2 : b.toNat < a.toNat
        · rw [if_neg h1, if_pos h2] at h
          exact absurd h (by simp)
        · rw [if_neg h1, if_neg h2] at h
          rw [if_neg h2, if_neg h1]
          exact lexLt_asymm as bs h

/-- Strictly smaller lists are different. -/
theorem lexLt_ne (as bs : List Char) (h : lexLt as bs = true) : as ≠ bs := by
  intro he
  subst he
  rw [lexLt_irrefl] at h
  exact absurd h (by simp)

/-- A common leading segment does not affect the comparison. -/
theorem lexLt_append_same : ∀ p a b : List Char, lexLt (p ++ a) (p ++ b) = lexLt a b
  | [], _, _ => rfl
  | c :: p, a, b => by
      show (if c.toNat < c.toNat then true
        else if c.toNat < c.toNat then false else lexLt (p ++ a) (p ++ b)) = lexLt a b
      rw [if_neg (by omega), if_neg (by omega)]
      exact lexLt_append_same p a b

/-- The latest (maximal) element comes from the list. -/
theorem latest_mem : ∀ (l : List String) (m : String), latestNumber l = some m → m ∈ l
  | [], m => by intro h; cases h
  | n :: ns, m => by
      intro h
      cases hlat : latestNumber ns with
      | none =>
          simp only [latestNumber, hlat, Option.some.injEq] at h
          subst h
          exact List.mem_cons_self _ _
      | some m' =>
          simp only [latestNumber, hlat, Option.some.injEq] at h
          by_cases hc : lexLt m'.data n.data = true
          · rw [if_pos hc] at h
            subst h
            exact List.mem_cons_self _ _
          · rw [if_neg hc] at h
            subst h
            exact List.mem_cons_of_mem _ (latest_mem ns m' hlat)

/-- When `M` is in the list and everything else is strictly below it,
`latestNumber` returns `M` (the `ORDER BY ... DESC` + `First` maximum). -/
theorem latest_eq_max (l : List String) (M : String) (hmem : M ∈ l)
    (hall : ∀ x ∈ l, x = M ∨ lexLt x.data M.data = true) :
    latestNumber l = some M := by
  induction l with
  | nil => cases hmem
  | cons n ns ih =>
      rcases List.mem_cons.mp hmem with rfl | hmem'
      · cases hlat : latestNumber ns with
        | none => simp [latestNumber, hlat]
        | some m =>
            have hm : m ∈ ns := latest_mem ns m hlat
            rcases hall m (List.mem_cons_of_mem _ hm) with rfl | hlt
            · simp [latestNumber, hlat, lexLt_irrefl]
            · simp [latestNumber, hlat, hlt]
      · have hallns : ∀ x ∈ ns, x = M ∨ lexLt x.data M.data = true :=
          fun x hx => hall x (List.mem_cons_of_mem _ hx)
        have hlat := ih hmem' hallns
        rcases hall n (List.mem_cons_self _ _) with rfl | hlt
        · simp [latestNumber, hlat, lexLt_irrefl]
        · simp [latestNumber, hlat, lexLt_asymm _ _ hlt]

/-- The digit character of a digit value. -/
theorem digitChar_toNat : ∀ d < 10, (Nat.digitChar d).toNat = 48 + d := by decide

/-- Digit characters satisfy `isDigit`. -/
theorem digitChar_isDigit : ∀ d < 10, (Nat.digitChar d).isDigit = true := by decide

set_option maxRecDepth 4000 in
/-- For `n ≤ 999`, `%03d` renders exactly the three decimal digits. -/
theorem pad3_data : ∀ n < 1000, (pad3 n).data = pad3Digits n := by decide

/-- Zero-padded three-digit renderings compare like the numbers they render. -/
theorem pad3Digits_lt (a b : Nat) (hab : a < b) (hb : b ≤ 999) :
    lexLt (pad3Digits a) (pad3Digits b) = true := by
  have h2a := digitChar_toNat (a / 100) (by omega)
  have h1a := digitChar_toNat (a / 10 % 10) (by omega)
  have h0a := digitChar_toNat (a % 10) (by omega)
  have h2b := digitChar_toNat (b / 100) (by omega)
  have h1b := digitChar_toNat (b / 10 % 10) (by omega)
  have h0b := digitChar_toNat (b % 10) (by omega)
  simp only [pad3Digits, lexLt, h2a, h1a, h0a, h2b, h1b, h0b]
  split_ifs <;> first | rfl | omega

/-- `pad3` strings compare like the numbers for arguments up to 999. -/
theorem pad3_lt (a b : Nat) (hab : a < b) (hb : b ≤ 999) :
    lexLt (pad3 a).data (pad3 b).data = true := by
  rw [pad3_data a (by omega), pad3_data b (by omega)]
  exact pad3Digits_lt a b hab hb

/-- `%3d` scanning of the three padded digits recovers the number. -/
theorem scan3_pad3Digits (k : Nat) (hk : k ≤ 999) : scan3 (pad3Digits k) = k := by
  have hd2 := digitChar_isDigit (k / 100) (by omega)
  have hd1 := digitChar_isDigit (k / 10 % 10) (by omega)
  have hd0 := digitChar_isDigit (k % 10) (by omega)
  have h2 := digitChar_toNat (k / 100) (by omega)
  have h1 := digitChar_toNat (k / 10 % 10) (by omega)
  have h0 := digitChar_toNat (k % 10) (by omega)
  simp only [scan3, pad3Digits, List.takeWhile_cons, hd2, hd1, hd0, if_true,
    List.takeWhile_nil, List.take, List.foldl, h2, h1, h0]
  omega

/-- Every list is a leading segment of itself extended. -/
theorem isLeadingSeg_self_append : ∀ p s : List Char, isLeadingSeg p (p ++ s) = true
  | [], _ => rfl
  | c :: p, s => by
      show (if c = c then isLeadingSeg p (p ++ s) else false) = true
      rw [if_pos rfl]
      exact isLeadingSeg_self_append p s

/-- The characters of a generated number split at the day prefix. -/
theorem woNum_data (d : String) (j : Nat) :
    (woNum d j).data = ("WO-" ++ d ++ "-").data ++ (pad3 j).data := rfl

/-- Same-day numbers all pass the `LIKE 'WO-<date>-%'` filter. -/
theorem filter_woNum (d : String) (l : List Nat) :
    (l.map (fun i => woNum d (i + 1))).filter
      (fun n => isLeadingSeg ("WO-" ++ d ++ "-").data n.data) =
      l.map (fun i => woNum d (i + 1)) := by
  rw [List.filter_eq_self]
  intro n hn
  rcases List.mem_map.mp hn with ⟨i, _, rfl⟩
  rw [woNum_data]
  exact isLeadingSeg_self_append _ _

/-- The generator's step on a day that already holds the padded numbers
`1..k` (`k ≤ 999`): the lexicographic maximum is number `k`, its scan gives
`k`, and the result is number `k+1`. -/
theorem generate_step (d : String) (k : Nat) (hk1 : 1 ≤ k) (hk : k ≤ 999) :
    generateWorkOrderNumber d ((List.range k).map (fun i => woNum d (i + 1))) =
      woNum d (k + 1) := by
  have hmax : latestNumber ((List.range k).map (fun i => woNum d (i + 1))) =
      some (woNum d k) := by
    apply latest_eq_max
    · exact List.mem_map.mpr ⟨k - 1, List.mem_range.mpr (by omega), by congr 1; omega⟩
    · intro x hx
      rcases List.mem_map.mp hx with ⟨i, hi, rfl⟩
      have hi' := List.mem_range.mp hi
      by_cases he : i + 1 = k
      · left; rw [he]
      · right
        rw [woNum_data, woNum_data, lexLt_append_same]
        exact pad3_lt (i + 1) k (by omega) hk
  unfold generateWorkOrderNumber
  rw [filter_woNum, hmax]
  show ("WO-" ++ d ++ "-") ++
      pad3 (scan3 ((woNum d k).data.drop ("WO-" ++ d ++ "-").data.length) + 1) =
      woNum d (k + 1)
  rw [woNum_data, List.drop_left, pad3_data k (by omega), scan3_pad3Digits k hk]
  rfl

/-- The generator's step once number 1000 exists: the lexicographic maximum is
*still* the padded number 999 (since `'1' < '9'`), so the generator produces
`WO-<date>-1000` again. -/
theorem generate_after_1000 (d : String) :
    generateWorkOrderNumber d ((List.range 1000).map (fun i => woNum d (i + 1))) =
      woNum d 1000 := by
  have hmax : latestNumber ((List.range 1000).map (fun i => woNum d (i + 1))) =
      some (woNum d 999) := by
    apply latest_eq_max
    · exact List.mem_map.mpr ⟨998, List.mem_range.mpr (by omega), rfl⟩
    · intro x hx
      rcases List.mem_map.mp hx with ⟨i, hi, rfl⟩
      have hi' := List.mem_range.mp hi
      by_cases he : i + 1 = 999
      · left; rw [he]
      · right
        rw [woNum_data, woNum_data, lexLt_append_same]
        by_cases h1000 : i + 1 = 1000
        · rw [h1000]
          decide
        · exact pad3_lt (i + 1) 999 (by omega) (by omega)
  unfold generateWorkOrderNumber
  rw [filter_woNum, hmax]
  show ("WO-" ++ d ++ "-") ++
      pad3 (scan3 ((woNum d 999).data.drop ("WO-" ++ d ++ "-").data.length) + 1) =
      woNum d 1000
  rw [woNum_data, List.drop_left, pad3_data 999 (by omega), scan3_pad3Digits 999 (by omega)]
  rfl

/-- Sequential creation on one day produces exactly the numbers `1..k`, as
long as at most 1000 orders are created. -/
theorem createdNumbers_eq (d : String) :
    ∀ k, k ≤ 1000 → createdNumbers d k = (List.range k).map (fun i => woNum d (i + 1)) := by
  intro k
  induction k with
  | zero => intro _; rfl
  | succ k ih =>
      intro hk
      have hprev := ih (by omega)
      simp only [createdNumbers]
      rw [hprev, List.range_succ, List.map_append]
      congr 1
      rcases Nat.eq_zero_or_pos k with rfl | hk1
      · rfl
      · simp only [List.map_cons, List.map_nil]
        rw [generate_step d k hk1 (by omega)]

/-- The 1001st sequential creation repeats the number of the 1000th. -/
theorem createdNumbers_1001 (d : String) :
    createdNumbers d 1001 =
      ((List.range 1000).map (fun i => woNum d (i + 1))) ++ [woNum d 1000] := by
  have hstep : createdNumbers d 1001 =
      createdNumbers d 1000 ++ [generateWorkOrderNumber d (createdNumbers d 1000)] := rfl
  rw [hstep, createdNumbers_eq d 1000 (by omega), generate_after_1000]

/-- C5 counterexample: sequential creation on one calendar day violates the
claim at the 1000th and 1001st creations.  The 1000th generated number is
`WO-20250101-1000` — a four-digit sequence, so not of the claimed
`WO-<8-digit-date>-<3-digit-sequence>` form — and, because string-descending
order ranks `...999` above `...1000`, the 1001st creation generates
`WO-20250101-1000` *again*: the numbers of a single day are not distinct. -/
theorem c5_counterexample_thousandth_number :
    (createdNumbers "20250101" 1001)[999]? = some "WO-20250101-1000" ∧
    (createdNumbers "20250101" 1001)[1000]? = some "WO-20250101-1000" ∧
    ¬ (createdNumbers "20250101" 1001).Nodup ∧
    claimNumberFormat "WO-20250101-1000" = false := by
  have ht := createdNumbers_1001 "20250101"
  refine ⟨?_, ?_, ?_, by decide⟩
  · rw [ht, List.getElem?_append]
    norm_num [List.getElem?_map, List.getElem?_range]
    rfl
  · rw [ht, List.getElem?_append]
    norm_num
    rfl
  · rw [ht]
    intro hnod
    rcases List.nodup_append.mp hnod with ⟨_, _, hdisj⟩
    exact hdisj (List.mem_map.mpr ⟨999, List.mem_range.mpr (by omega), rfl⟩) (by simp)

/-- C5 amended: for up to 999 sequential creations on one (8-digit) calendar
day, the generated numbers are exactly `WO-<date>-001 .. WO-<date>-<padded k>`
— the sequence starts at 1, each creation uses one plus the highest existing
sequence for the day — they are pairwise distinct, and each matches the
`WO-<8-digit-date>-<3-digit-sequence>` format; from the 1000th creation on
this fails (see the counterexample). -/
theorem c5_numbers_sequential_below_1000 (d : String) (k : Nat) (hk : k ≤ 999)
    (hd8 : d.data.length = 8) (hdd : d.data.all Char.isDigit = true) :
    createdNumbers d k = (List.range k).map (fun i => woNum d (i + 1)) ∧
    (createdNumbers d k).Nodup ∧
    ∀ s ∈ createdNumbers d k, claimNumberFormat s = true := by
  have heq := createdNumbers_eq d k (by omega)
  refine ⟨heq, ?_, ?_⟩
  · rw [heq]
    refine List.Nodup.map_on ?_ (List.nodup_range k)
    intro i hi j hj hfe
    by_contra hne
    have hi' := List.mem_range.mp hi
    have hj' := List.mem_range.mp hj
    rcases Nat.lt_or_ge i j with hij | hij
    · have hlt : lexLt (woNum d (i + 1)).data (woNum d (j + 1)).data = true := by
        rw [woNum_data, woNum_data, lexLt_append_same]
        exact pad3_lt (i + 1) (j + 1) (by omega) (by omega)
      exact lexLt_ne _ _ hlt (congrArg String.data hfe)
    · have hlt : lexLt (woNum d (j + 1)).data (woNum d (i + 1)).data = true := by
        rw [woNum_data, woNum_data, lexLt_append_same]
        exact pad3_lt (j + 1) (i + 1) (by omega) (by omega)
      exact lexLt_ne _ _ hlt (congrArg String.data hfe.symm)
  · intro s hs
    rw [heq] at hs
    rcases List.mem_map.mp hs with ⟨i, hi, rfl⟩
    have hi' := List.mem_range.mp hi
    have hWO : ("WO-" : String).data = ['W', 'O', '-'] := rfl
    have hdash : ("-" : String).data = ['-'] := rfl
    have hdata : (woNum d (i + 1)).data =
        ['W', 'O', '-'] ++ (d.data ++ (['-'] ++ pad3Digits (i + 1))) := by
      rw [woNum_data, pad3_data (i + 1) (by omega)]
      show (("WO-".data ++ d.data) ++ "-".data) ++ pad3Digits (i + 1) = _
      rw [hWO, hdash]
      simp [List.append_assoc]
    have hplen : (pad3Digits (i + 1)).length = 3 := rfl
    have hpdig : (pad3Digits (i + 1)).all Char.isDigit = true := by
      simp only [pad3Digits, List.all_cons, List.all_nil, Bool.and_eq_true]
      refine ⟨digitChar_isDigit _ (by omega), digitChar_isDigit _ (by omega),
        digitChar_isDigit _ (by omega), trivial⟩
    unfold claimNumberFormat
    rw [hdata]
    have c1 : ((['W', 'O', '-'] ++ (d.data ++ (['-'] ++ pad3Digits (i + 1)))).take 3 =
        ['W', 'O', '-']) := by
      rw [show (3 : Nat) = (['W', 'O', '-'] : List Char).length from rfl, List.take_left]
    have c2 : (['W', 'O', '-'] ++ (d.data ++ (['-'] ++ pad3Digits (i + 1)))).length = 15 := by
      simp [hd8, hplen]
    have c3 : ((['W', 'O', '-'] ++ (d.data ++ (['-'] ++ pad3Digits (i + 1)))).drop 3).take 8 =
        d.data := by
      rw [show (['W', 'O', '-'] ++ (d.data ++ (['-'] ++ pad3Digits (i + 1)))).drop 3 =
        d.data ++ (['-'] ++ pad3Digits (i + 1)) from rfl]
      rw [← hd8, List.take_left]
    have c4 : (['W', 'O', '-'] ++ (d.data ++ (['-'] ++ pad3Digits (i + 1))))[11]? =
        some '-' := by
      rw [List.getElem?_append_right (by simp)]
      rw [show (11 : Nat) - (['W', 'O', '-'] : List Char).length = 8 from rfl]
      rw [List.getElem?_append_right (by omega)]
      rw [hd8]
      rfl
    have c5 : (['W', 'O', '-'] ++ (d.data ++ (['-'] ++ pad3Digits (i + 1)))).drop 12 =
        pad3Digits (i + 1) := by
      rw [show (12 : Nat) = (['W', 'O', '-'] : List Char).length + 9 from rfl,
        List.drop_append]
      rw [show (9 : Nat) = d.data.length + 1 from by rw [hd8], List.drop_append]
      rfl
    rw [c1, c2, c3, c4, c5]
    simp [hdd, hpdig]

/-- C5 witness: three sequential creations on 2025-01-01. -/
theorem c5_witness :
    ((3 : Nat) ≤ 999 ∧ ("20250101" : String).data.length = 8 ∧
      ("20250101" : String).data.all Char.isDigit = true) ∧
    (createdNumbers "20250101" 3 =
        (List.range 3).map (fun i => woNum "20250101" (i + 1)) ∧
      (createdNumbers "20250101" 3).Nodup ∧
      ∀ s ∈ createdNumbers "20250101" 3, claimNumberFormat s = true) := by
  refine ⟨⟨by decide, by decide, by decide⟩, ?_⟩
  exact c5_numbers_sequential_below_1000 "20250101" 3 (by decide) (by decide) (by decide)

end WorkOrderSys
